import Mathlib

/-!
Verification of the agent reasoning orchestrator of the repository
(src/agent/base.py and src/agent/tools/base.py), as a shallow embedding.

Strings are modelled as Lean strings, manipulated mostly through their
character lists.  Python regular-expression searches used by the source
are embedded as explicit left-to-right scanners whose behaviour matches
the backtracking semantics of the concrete patterns used (documented at
each definition).  Character classes (\s, \w, \d) are embedded at their
ASCII core; the source only ever relies on ASCII behaviour.
-/

namespace Agent
/-- Python str.isspace / regex \s at its ASCII core: space, tab, newline,
carriage return, vertical tab, form feed. -/
def pyIsSpace (c : Char) : Bool :=
  c = ' ' || c = '\t' || c = '\n' || c = '\r' || c = '\x0b' || c = '\x0c'

/-- Python regex \w at its ASCII core: letters, digits, underscore. -/
def pyIsWord (c : Char) : Bool :=
  c.isAlphanum || c = '_'

/-- Python str.strip() on a character list: drop leading and trailing
whitespace. -/
def stripList (l : List Char) : List Char :=
  ((l.dropWhile pyIsSpace).reverse.dropWhile pyIsSpace).reverse

/-- Python str.strip() on strings. -/
def pyStrip (s : String) : String :=
  ⟨stripList s.toList⟩

/-- Python str.lstrip() on a character list. -/
def lstripList (l : List Char) : List Char :=
  l.dropWhile pyIsSpace

/-- Python str.lstrip() on strings. -/
def pyLStrip (s : String) : String :=
  ⟨lstripList s.toList⟩

/-- Python str.upper() at its ASCII core, character by character. -/
def pyUpper (s : String) : String :=
  ⟨s.toList.map Char.toUpper⟩

/-- Split a character list at the first occurrence of the pattern
(Python str.find + slicing): returns the text before the occurrence and
the text after it, or none when the pattern does not occur. -/
def splitAtFirst (pat : List Char) : List Char → Option (List Char × List Char)
  | [] => if pat.isPrefixOf ([] : List Char) then some ([], []) else none
  | c :: rest =>
    if pat.isPrefixOf (c :: rest) then some ([], (c :: rest).drop pat.length)
    else (splitAtFirst pat rest).map (fun p => (c :: p.1, p.2))

/-- Python `pat in s` on character lists. -/
def containsSub (pat l : List Char) : Bool :=
  (splitAtFirst pat l).isSome

/-- Python `pat in s` on strings. -/
def containsSubstr (s pat : String) : Bool :=
  containsSub pat.toList s.toList

/-- Scanner for `re.search(marker + r"\s*(.+)", s, re.DOTALL)` followed by
`.group(1).strip()`, for a literal marker (used with "Final Answer:" and
"RETRY:").  The regex matches at the first occurrence of the marker that
has at least one character after it (with a greedy `\s*`, a backtracking
step lets `(.+)` take the final whitespace character when everything after
the marker is whitespace); in every matching case
`group(1).strip() = strip(everything after the marker)`, so the scanner
returns the raw tail and the caller strips it. -/
def searchMarkerTail (marker : List Char) : List Char → Option (List Char)
  | [] => none
  | c :: rest =>
    if marker.isPrefixOf (c :: rest) && !((c :: rest).drop marker.length).isEmpty then
      some ((c :: rest).drop marker.length)
    else searchMarkerTail marker rest

/-- Scanner for `re.search(r"Action:\s*(\w+)", s)`: the first occurrence of
"Action:" after which, past optional whitespace, at least one word
character stands; the capture is the maximal word run there.  A failed
occurrence (no word character after the whitespace) lets the search
continue at the next position, as re.search does. -/
def searchActionName : List Char → Option (List Char)
  | [] => none
  | c :: rest =>
    let l := c :: rest
    let marker := "Action:".toList
    if marker.isPrefixOf l then
      let w := ((l.drop marker.length).dropWhile pyIsSpace).takeWhile pyIsWord
      if w.isEmpty then searchActionName rest else some w
    else searchActionName rest

/-- Lookahead of `(?=Action:|Final Answer:|$)`. -/
def thoughtStop (l : List Char) : Bool :=
  ("Action:".toList).isPrefixOf l || ("Final Answer:".toList).isPrefixOf l || l.isEmpty

/-- Lazy capture body of `(.+?)(?=Action:|Final Answer:|$)`: consume
characters until the lookahead holds (checked from the second consumed
position on, since `.+?` consumes at least one character first). -/
def takeUntilStop : List Char → List Char
  | [] => []
  | c :: rest => if thoughtStop (c :: rest) then [] else c :: takeUntilStop rest

/-- Scanner for
`re.search(r"Thought:\s*(.+?)(?=Action:|Final Answer:|$)", s, re.DOTALL)`:
the first occurrence of "Thought:" with at least one character after it
matches.  The greedy `\s*` takes the maximal whitespace run; when
something follows it, the lazy capture takes one character and then the
minimum up to the lookahead; when only whitespace follows the marker, one
backtracking step makes the capture the final whitespace character. -/
def searchThought : List Char → Option (List Char)
  | [] => none
  | c :: rest =>
    let l := c :: rest
    let marker := "Thought:".toList
    if marker.isPrefixOf l then
      let post := l.drop marker.length
      if post.isEmpty then searchThought rest
      else
        match post.dropWhile pyIsSpace with
        | [] => some (post.reverse.take 1)
        | a :: follow => some (a :: takeUntilStop follow)
    else searchThought rest

/-- Brace scan of BaseAgent._parse_action (base.py lines 395-406): walk the
characters keeping a depth counter; at a closing brace that brings the
depth to zero, stop and report the exclusive end index.  none models the
Python loop finishing with json_end still 0. -/
def braceScanAux : List Char → Int → Nat → Option Nat
  | [], _, _ => none
  | c :: rest, depth, i =>
    if c = '{' then braceScanAux rest (depth + 1) (i + 1)
    else if c = '}' then
      if depth - 1 = 0 then some (i + 1) else braceScanAux rest (depth - 1) (i + 1)
    else braceScanAux rest depth (i + 1)

/-- Action-Input extraction of BaseAgent._parse_action (base.py lines
384-416): find "Action Input:", strip what follows, and when it starts
with an opening brace take the prefix up to the brace that first returns
the depth to zero. -/
def extractActionInput (response : List Char) : Option (List Char) :=
  match splitAtFirst ("Action Input:".toList) response with
  | none => none
  | some (_, post) =>
    let remaining := stripList post
    match remaining with
    | '{' :: _ =>
      match braceScanAux remaining 0 0 with
      | some jsonEnd => some (remaining.take jsonEnd)
      | none => none
    | _ => none

/-- Python values as they occur in this subsystem (json.loads results and
the fallback parser's productions).  Floats are kept as their literal
text: no claim depends on float arithmetic. -/
inductive PyVal where
  | vNull : PyVal
  | vBool : Bool → PyVal
  | vInt : Int → PyVal
  | vFloat : String → PyVal
  | vStr : String → PyVal
  | vList : List PyVal → PyVal
  | vDict : List (String × PyVal) → PyVal

/-- A Python dict with string keys, as an insertion-ordered association
list with unique keys. -/
abbrev PyDict := List (String × PyVal)

/-- Python `d[k]` lookup / `k in d` membership support. -/
def pyDictLookup (d : PyDict) (k : String) : Option PyVal :=
  match d with
  | [] => none
  | (k', v) :: rest => if k' = k then some v else pyDictLookup rest k

/-- Python `d[k] = v`: update in place when the key exists, else append. -/
def pyDictInsert (d : PyDict) (k : String) (v : PyVal) : PyDict :=
  match d with
  | [] => [(k, v)]
  | (k', v') :: rest =>
    if k' = k then (k, v) :: rest else (k', v') :: pyDictInsert rest k v

/-- Matcher for the regex `"(\w+)":\s*"([^"]*)"` at the current position
(base.py line 441): quote, nonempty word run, quote, colon, optional
whitespace, quoted run of non-quote characters.  Returns key, value and
the rest of the input after the match. -/
def matchStringPair (l : List Char) : Option (List Char × List Char × List Char) :=
  match l with
  | '"' :: rest =>
    let key := rest.takeWhile pyIsWord
    if key.isEmpty then none
    else
      match rest.drop key.length with
      | '"' :: ':' :: r2 =>
        match r2.dropWhile pyIsSpace with
        | '"' :: r4 =>
          let v := r4.takeWhile (fun c => c != '"')
          match r4.drop v.length with
          | '"' :: r5 => some (key, v, r5)
          | _ => none
        | _ => none
      | _ => none
  | _ => none

/-- Matcher for the regex `"(\w+)":\s*(\d+(?:\.\d+)?)` at the current
position (base.py line 446): after the quoted key and colon, a maximal
digit run, optionally extended by a dot and a further nonempty digit run.
Returns key, the captured numeral text and the rest. -/
def matchNumPair (l : List Char) : Option (List Char × List Char × List Char) :=
  match l with
  | '"' :: rest =>
    let key := rest.takeWhile pyIsWord
    if key.isEmpty then none
    else
      match rest.drop key.length with
      | '"' :: ':' :: r2 =>
        let r3 := r2.dropWhile pyIsSpace
        let digits := r3.takeWhile Char.isDigit
        if digits.isEmpty then none
        else
          let r4 := r3.drop digits.length
          let frac := (r4.drop 1).takeWhile Char.isDigit
          if r4.head? = some '.' && !frac.isEmpty then
            some (key, digits ++ '.' :: frac, (r4.drop 1).drop frac.length)
          else some (key, digits, r4)
      | _ => none
  | _ => none

/-- Case-insensitive literal prefix test (re.IGNORECASE on an ASCII
literal). -/
def ciPrefix : List Char → List Char → Bool
  | [], _ => true
  | _ :: _, [] => false
  | p :: ps, c :: cs => (p.toLower = c.toLower) && ciPrefix ps cs

/-- Matcher for the regex `"(\w+)":\s*(true|false)` with re.IGNORECASE at
the current position (base.py line 458).  The alternation tries `true`
first; `val.lower() == "true"` in the source reduces the captured text to
the Bool returned here. -/
def matchBoolPair (l : List Char) : Option (List Char × Bool × List Char) :=
  match l with
  | '"' :: rest =>
    let key := rest.takeWhile pyIsWord
    if key.isEmpty then none
    else
      match rest.drop key.length with
      | '"' :: ':' :: r2 =>
        let r3 := r2.dropWhile pyIsSpace
        if ciPrefix ("true".toList) r3 then some (key, true, r3.drop 4)
        else if ciPrefix ("false".toList) r3 then some (key, false, r3.drop 5)
        else none
      | _ => none
  | _ => none

/-- re.findall with fuel, for any of the three pair matchers: scan left
to right, take the leftmost match, continue after it (non-overlapping),
as Python does.  The shrink lemmas above show a match's remainder is
strictly shorter than its input, so fuel equal to the input length never
runs out (each step consumes one fuel and strictly shortens the list);
the fuel only makes the recursion structural. -/
def scanPairsAux {β : Type} (matcher : List Char → Option (List Char × β × List Char)) :
    Nat → List Char → List (List Char × β)
  | 0, _ => []
  | _ + 1, [] => []
  | fuel + 1, c :: rest =>
    match matcher (c :: rest) with
    | some (k, v, rem) => (k, v) :: scanPairsAux matcher fuel rem
    | none => scanPairsAux matcher fuel rest

/-- re.findall for the string-pair regex. -/
def scanStringPairs (l : List Char) : List (List Char × List Char) :=
  scanPairsAux matchStringPair l.length l

/-- re.findall for the numeric-pair regex. -/
def scanNumPairs (l : List Char) : List (List Char × List Char) :=
  scanPairsAux matchNumPair l.length l

/-- re.findall for the boolean-pair regex. -/
def scanBoolPairs (l : List Char) : List (List Char × Bool) :=
  scanPairsAux matchBoolPair l.length l

/-- Numeric value of a digit run (Python int() on the digits the regex
captured). -/
def natOfDigits (l : List Char) : Nat :=
  l.foldl (fun n c => n * 10 + (c.toNat - '0'.toNat)) 0

/-- Conversion the source applies to a captured numeral:
`float(val) if "." in val else int(val)` (base.py line 452). -/
def numValOfCapture (v : List Char) : PyVal :=
  if '.' ∈ v then .vFloat ⟨v⟩ else .vInt (natOfDigits v)

/-- The string pairs of the fallback scan, as dict entries
(re.findall output with keys and values made strings). -/
def strPairsOf (text : List Char) : List (String × PyVal) :=
  (scanStringPairs text).map (fun kv => (⟨kv.1⟩, .vStr ⟨kv.2⟩))

/-- The numeric pairs of the fallback scan, each converted as the loop
would convert it (the conversion is pure, so converting up front is the
same). -/
def numPairsOf (text : List Char) : List (String × PyVal) :=
  (scanNumPairs text).map (fun kv => (⟨kv.1⟩, numValOfCapture kv.2))

/-- The boolean pairs of the fallback scan. -/
def boolPairsOf (text : List Char) : List (String × PyVal) :=
  (scanBoolPairs text).map (fun kv => (⟨kv.1⟩, .vBool kv.2))

/-- Fallback parameter parsing of BaseAgent._parse_action (base.py lines
434-464), applied to the extracted Action-Input text when json.loads
fails: dict() of the string pairs (sequential insertion, so a later pair
for the same key overwrites an earlier one), then the numeric pairs and
the boolean pairs added only when the key is still absent. -/
def fallbackParseInput (text : List Char) : PyDict :=
  let d0 := (strPairsOf text).foldl (fun d kv => pyDictInsert d kv.1 kv.2) []
  let d1 := (numPairsOf text).foldl
    (fun d kv =>
      if (pyDictLookup d kv.1).isSome then d else pyDictInsert d kv.1 kv.2) d0
  (boolPairsOf text).foldl
    (fun d kv =>
      if (pyDictLookup d kv.1).isSome then d else pyDictInsert d kv.1 kv.2) d1

/-! Strict JSON parsing, embedding Python json.loads as _parse_action uses
it (base.py line 432).  It is only ever applied to the brace-balanced text
extractActionInput returns, so a successful parse is an object; the full
value grammar is embedded anyway.  Inter-token whitespace is the set
json.decoder accepts (space, tab, newline, carriage return).  Lone
surrogate escapes, which Python keeps as unpaired surrogate code units,
are mapped through Char.ofNat (hence to NUL) as Lean strings cannot hold
them; no input in this development contains one. -/

/-- Whitespace accepted by json.decoder between tokens. -/
def jsonIsWs (c : Char) : Bool :=
  c = ' ' || c = '\t' || c = '\n' || c = '\r'

/-- Skip inter-token JSON whitespace. -/
def jsonSkipWs (l : List Char) : List Char :=
  l.dropWhile jsonIsWs

/-- Hexadecimal digit value, on the code point (json.decoder accepts
both letter cases). -/
def hexVal (c : Char) : Option Nat :=
  let n := c.toNat
  if 48 ≤ n ∧ n ≤ 57 then some (n - 48)
  else if 97 ≤ n ∧ n ≤ 102 then some (n - 87)
  else if 65 ≤ n ∧ n ≤ 70 then some (n - 55)
  else none

/-- Four hex digits to a code unit. -/
def hex4 (a b c d : Char) : Option Nat :=
  match hexVal a, hexVal b, hexVal c, hexVal d with
  | some x, some y, some z, some w => some (((x * 16 + y) * 16 + z) * 16 + w)
  | _, _, _, _ => none

/-- JSON string body parser (after the opening quote): strict mode, so a
raw control character is an error; escapes as json.decoder knows them,
with surrogate-pair combination for \uXXXX.  Every step consumes at
least one character, so the wrapper's fuel of input length + 1 never runs
out; the fuel keeps the recursion structural (the surrogate case
re-enters on a suffix that is not a pattern subterm). -/
def jsonParseStrAux : Nat → List Char → Option (List Char × List Char)
  | 0, _ => none
  | _ + 1, [] => none
  | _ + 1, '"' :: rest => some ([], rest)
  | fuel + 1, '\\' :: 'u' :: a :: b :: c :: d :: rest7@('\\' :: 'u' :: e :: f :: g :: h :: rest) =>
    match hex4 a b c d with
    | none => none
    | some n =>
      if 0xD800 ≤ n && n ≤ 0xDBFF then
        match hex4 e f g h with
        | none => none
        | some m =>
          if 0xDC00 ≤ m && m ≤ 0xDFFF then
            (jsonParseStrAux fuel rest).map
              (fun p => (Char.ofNat (0x10000 + (n - 0xD800) * 0x400 + (m - 0xDC00)) :: p.1, p.2))
          else
            (jsonParseStrAux fuel rest7).map (fun p => (Char.ofNat n :: p.1, p.2))
      else
        (jsonParseStrAux fuel rest7).map (fun p => (Char.ofNat n :: p.1, p.2))
  | fuel + 1, '\\' :: 'u' :: a :: b :: c :: d :: rest =>
    match hex4 a b c d with
    | none => none
    | some n => (jsonParseStrAux fuel rest).map (fun p => (Char.ofNat n :: p.1, p.2))
  | fuel + 1, '\\' :: e :: rest =>
    match e with
    | '"' => (jsonParseStrAux fuel rest).map (fun p => ('"' :: p.1, p.2))
    | '\\' => (jsonParseStrAux fuel rest).map (fun p => ('\\' :: p.1, p.2))
    | '/' => (jsonParseStrAux fuel rest).map (fun p => ('/' :: p.1, p.2))
    | 'b' => (jsonParseStrAux fuel rest).map (fun p => ('\x08' :: p.1, p.2))
    | 'f' => (jsonParseStrAux fuel rest).map (fun p => ('\x0c' :: p.1, p.2))
    | 'n' => (jsonParseStrAux fuel rest).map (fun p => ('\n' :: p.1, p.2))
    | 'r' => (jsonParseStrAux fuel rest).map (fun p => ('\r' :: p.1, p.2))
    | 't' => (jsonParseStrAux fuel rest).map (fun p => ('\t' :: p.1, p.2))
    | _ => none
  | fuel + 1, c :: rest =>
    if c.toNat < 0x20 then none
    else (jsonParseStrAux fuel rest).map (fun p => (c :: p.1, p.2))

/-- JSON string body parser entry point. -/
def jsonParseStr (l : List Char) : Option (List Char × List Char) :=
  jsonParseStrAux (l.length + 1) l

/-- Digit run splitter for the JSON number grammar. -/
def spanDigits (l : List Char) : List Char × List Char :=
  (l.takeWhile Char.isDigit, l.dropWhile Char.isDigit)

/-- JSON number parser, regex
`-?(0|[1-9]\d*)(\.\d+)?([eE][+-]?\d+)?` as json.decoder applies it at the
current position; an integer literal yields vInt, anything else keeps its
text as vFloat. -/
def jsonParseNumber (l : List Char) : Option (PyVal × List Char) :=
  let (sign, l1) := match l with
    | '-' :: rest => (true, rest)
    | _ => (false, l)
  match l1 with
  | [] => none
  | c :: _ =>
    if !c.isDigit then none
    else
      let (intPart, l2) :=
        if c = '0' then ([c], l1.drop 1)
        else spanDigits l1
      let (fracPart, l3) :=
        match l2 with
        | '.' :: r =>
          let (ds, r') := spanDigits r
          if ds.isEmpty then ([], l2) else ('.' :: ds, r')
        | _ => ([], l2)
      let (expPart, l4) :=
        match l3 with
        | e :: r =>
          if e = 'e' || e = 'E' then
            let (sgn, r1) :=
              match r with
              | '+' :: rr => (['+'], rr)
              | '-' :: rr => (['-'], rr)
              | _ => ([], r)
            let (ds, r2) := spanDigits r1
            if ds.isEmpty then ([], l3) else (e :: (sgn ++ ds), r2)
          else ([], l3)
        | _ => ([], l3)
      let text := (if sign then ['-'] else []) ++ intPart ++ fracPart ++ expPart
      if fracPart.isEmpty && expPart.isEmpty then
        let n : Int := natOfDigits intPart
        some (.vInt (if sign then -n else n), l4)
      else some (.vFloat ⟨text⟩, l4)

/-- Parsing mode of the JSON grammar: a value, the members of an object
being accumulated, or the items of an array being accumulated (the three
mutually recursive productions of json.decoder, merged into one function
so the recursion is structural in the fuel). -/
inductive JMode where
  | value
  | members (acc : PyDict)
  | items (acc : List PyVal)

/-- JSON parser with fuel (the nesting consumes at least one character
per level, so the caller's fuel of input length + 1 never runs out).
Mirrors json.decoder: strings, objects, arrays, the three constants, NaN
and the infinities, then numbers; object members and array items expect
a comma or the closing bracket after each element; duplicate object keys
follow dict assignment (the later value wins). -/
def jsonParseCore : Nat → JMode → List Char → Option (PyVal × List Char)
  | 0, _, _ => none
  | fuel + 1, .value, l =>
    match l with
    | [] => none
    | '"' :: rest => (jsonParseStr rest).map (fun p => (.vStr ⟨p.1⟩, p.2))
    | '{' :: rest =>
      match jsonSkipWs rest with
      | '}' :: r => some (.vDict [], r)
      | l1 => jsonParseCore fuel (.members []) l1
    | '[' :: rest =>
      match jsonSkipWs rest with
      | ']' :: r => some (.vList [], r)
      | l1 => jsonParseCore fuel (.items []) l1
    | c :: rest =>
      if ("null".toList).isPrefixOf (c :: rest) then some (.vNull, (c :: rest).drop 4)
      else if ("true".toList).isPrefixOf (c :: rest) then some (.vBool true, (c :: rest).drop 4)
      else if ("false".toList).isPrefixOf (c :: rest) then some (.vBool false, (c :: rest).drop 5)
      else if ("NaN".toList).isPrefixOf (c :: rest) then some (.vFloat "nan", (c :: rest).drop 3)
      else if ("Infinity".toList).isPrefixOf (c :: rest) then
        some (.vFloat "inf", (c :: rest).drop 8)
      else if ("-Infinity".toList).isPrefixOf (c :: rest) then
        some (.vFloat "-inf", (c :: rest).drop 9)
      else jsonParseNumber (c :: rest)
  | fuel + 1, .members acc, l =>
    match l with
    | '"' :: rest =>
      match jsonParseStr rest with
      | none => none
      | some (key, r1) =>
        match jsonSkipWs r1 with
        | ':' :: r2 =>
          match jsonParseCore fuel .value (jsonSkipWs r2) with
          | none => none
          | some (v, r3) =>
            match jsonSkipWs r3 with
            | '}' :: r4 => some (.vDict (pyDictInsert acc ⟨key⟩ v), r4)
            | ',' :: r4 =>
              jsonParseCore fuel (.members (pyDictInsert acc ⟨key⟩ v)) (jsonSkipWs r4)
            | _ => none
        | _ => none
    | _ => none
  | fuel + 1, .items acc, l =>
    match jsonParseCore fuel .value l with
    | none => none
    | some (v, r) =>
      match jsonSkipWs r with
      | ']' :: r2 => some (.vList (acc ++ [v]), r2)
      | ',' :: r2 => jsonParseCore fuel (.items (acc ++ [v])) (jsonSkipWs r2)
      | _ => none

/-- Python json.loads: parse one value with surrounding whitespace and
require the input to be fully consumed. -/
def jsonLoads (s : String) : Option PyVal :=
  match jsonParseCore (s.toList.length + 1) .value (jsonSkipWs s.toList) with
  | some (v, rest) => if (jsonSkipWs rest).isEmpty then some v else none
  | none => none

/-- The json.loads result as _parse_action assigns it to action_input:
the extracted text starts with an opening brace, so a successful parse is
always an object; its key/value list is the parameter dict. -/
def jsonLoadsDict (s : String) : Option PyDict :=
  match jsonLoads s with
  | some (.vDict d) => some d
  | _ => none

/-- Result of BaseAgent._parse_action: the Python tuple
("__final__", answer), (action_name, action_input) or (None, None). -/
inductive ParsedAction where
  | finalAns (answer : String)
  | action (name : String) (input : PyDict)
  | noAction

/-- BaseAgent._parse_action (base.py lines 365-473), parameterised by the
strict JSON parser (instantiated with jsonLoadsDict below): first the
Final-Answer search, which wins over everything; else the Action-name
search, with parameters from the brace-extracted Action-Input text via
json.loads or, when that fails, the fallback pair scan. -/
def parseAction (jl : String → Option PyDict) (response : String) : ParsedAction :=
  let chars := response.toList
  match searchMarkerTail ("Final Answer:".toList) chars with
  | some tail => .finalAns ⟨stripList tail⟩
  | none =>
    match searchActionName chars with
    | some w =>
      let input : PyDict :=
        match extractActionInput chars with
        | none => []
        | some js =>
          match jl ⟨js⟩ with
          | some d => d
          | none => fallbackParseInput js
      .action ⟨w⟩ input
    | none => .noAction

/-- BaseAgent._parse_action with the concrete json.loads model. -/
def parseActionC (response : String) : ParsedAction :=
  parseAction jsonLoadsDict response

/-! Tool layer (src/agent/tools/base.py). -/

/-- ToolCategory enum (tools/base.py lines 9-16). -/
inductive ToolCategory where
  | retrieval | file_operation | web_search | analysis | notify_cat | utility
deriving DecidableEq

/-- One entry of a tool's parameter schema, the dict
\x7bname, type, description, required\x7d the source iterates over;
`required` absent defaults to True at the use sites (dict.get). -/
structure ToolParamSpec where
  name : String
  type : String
  description : String
  required : Option Bool := none

/-- ToolResult (tools/base.py lines 29-36).  data is arbitrary; metadata
defaults to an empty dict. -/
structure ToolResult where
  success : Bool
  output : String
  data : Option PyVal := none
  error : Option String := none
  metadata : PyDict := []

/-- A concrete tool: name, description, category, parameter schema, and
the behaviour of calling execute(**kwargs), whose exceptions (including
any TypeError/KeyError a missing argument provokes inside the call) are
modelled as the Except error case carrying str(e). -/
structure PyTool where
  name : String
  description : String
  category : ToolCategory
  parameters : List ToolParamSpec
  execute : PyDict → Except String ToolResult

/-- Association-list lookup for the agent's tools dict and the registry's
_tools dict. -/
def pyAssocLookup (tools : List (String × PyTool)) (k : String) : Option PyTool :=
  match tools with
  | [] => none
  | (k', t) :: rest => if k' = k then some t else pyAssocLookup rest k

/-- BaseTool._validate_params (tools/base.py lines 96-105): the first
schema parameter that is required (default True) and missing from kwargs
produces the error message; otherwise none. -/
def validateParams (params : List ToolParamSpec) (kwargs : PyDict) : Option String :=
  match params.find? (fun p => p.required.getD true && (pyDictLookup kwargs p.name).isNone) with
  | some p => some ("缺少必需参数: " ++ p.name)
  | none => none

/-- BaseTool.__call__ (tools/base.py lines 107-114): validate, and on a
validation error return a failing ToolResult without invoking execute;
otherwise the result of execute (whose exceptions it does not catch). -/
def toolDunderCall (t : PyTool) (kwargs : PyDict) : Except String ToolResult :=
  match validateParams t.parameters kwargs with
  | some err => .ok { success := false, output := "", error := some err }
  | none => t.execute kwargs

/-- ToolRegistry state (tools/base.py lines 149-154): the _tools dict in
registration order and the _categories dict initialised with every
category. -/
structure ToolRegistry where
  tools : List (String × PyTool)
  categories : List (ToolCategory × List String)

/-- A fresh ToolRegistry. -/
def emptyRegistry : ToolRegistry :=
  { tools := [],
    categories := [(.retrieval, []), (.file_operation, []), (.web_search, []),
      (.analysis, []), (.notify_cat, []), (.utility, [])] }

/-- Append a tool name to its category's list. -/
def addToCategory (cats : List (ToolCategory × List String)) (c : ToolCategory)
    (n : String) : List (ToolCategory × List String) :=
  cats.map (fun p => if p.1 = c then (p.1, p.2 ++ [n]) else p)

/-- ToolRegistry.register (tools/base.py lines 156-162): a duplicate name
raises ValueError before anything is mutated, so the registry is
unchanged; otherwise the tool is added to _tools and its category
list. -/
def ToolRegistry.register (reg : ToolRegistry) (t : PyTool) : Except String ToolRegistry :=
  if (pyAssocLookup reg.tools t.name).isSome then
    .error ("工具 '" ++ t.name ++ "' 已存在")
  else
    .ok { tools := reg.tools ++ [(t.name, t)],
          categories := addToCategory reg.categories t.category t.name }

/-- One registration whose raised duplicate error is survived by the
caller (the registry itself is untouched by a failed register). -/
def registerStep (reg : ToolRegistry) (t : PyTool) : ToolRegistry :=
  match reg.register t with
  | .ok reg' => reg'
  | .error _ => reg

/-- A sequence of registrations, each surviving its possible duplicate
error. -/
def registerAll (ts : List PyTool) : ToolRegistry :=
  ts.foldl registerStep emptyRegistry

/-- BaseAgent.register_tool (base.py lines 335-344): plain dict
assignment self.tools[tool.name] = tool, overwriting silently. -/
def registerTool (tools : List (String × PyTool)) (t : PyTool) : List (String × PyTool) :=
  match tools with
  | [] => [(t.name, t)]
  | (k, u) :: rest => if k = t.name then (k, t) :: rest else (k, u) :: registerTool rest t

/-! Agent core (src/agent/base.py). -/

/-- AgentState enum (base.py lines 44-52). -/
inductive AgentState where
  | idle | thinking | acting | reflecting | completed | error
deriving DecidableEq

/-- AgentConfig (base.py lines 66-75).  temperature is only forwarded to
the model backend, which is outside this model (it is a float; no logic
in the subsystem reads it). -/
structure AgentConfig where
  max_iterations : Int := 5
  enable_reflection : Bool := false
  enable_planning : Bool := true
  verbose : Bool := true
  llm_timeout : Int := 30

/-- ThoughtStep (base.py lines 78-91). -/
structure ThoughtStep where
  step : Nat
  thought : String
  action : Option String := none
  action_input : Option PyDict := none
  observation : Option String := none
  observation_data : Option PyDict := none
  reflection : Option String := none

/-- AgentResponse (base.py lines 104-113). -/
structure AgentResponse where
  success : Bool
  answer : String
  thought_process : List ThoughtStep := []
  tools_used : List String := []
  iterations : Nat := 0
  final_reflection : Option String := none

/-- Python repr of a list of strings, as the f-string in the
unknown-tool message renders list(self.tools.keys()). -/
def pyReprStrList (l : List String) : String :=
  "[" ++ String.intercalate ", " (l.map (fun s => "'" ++ s ++ "'")) ++ "]"

/-- The unknown-tool observation text of _execute_action (base.py lines
485-489). -/
def unknownToolMsg (tools : List (String × PyTool)) (name : String) : String :=
  "错误: 未知工具 '" ++ name ++ "'，可用工具: " ++ pyReprStrList (tools.map (fun p => p.1))

/-- A Python Optional[str] placed into a dict value. -/
def optValOfStr : Option String → PyVal
  | some s => .vStr s
  | none => .vNull

/-- Python f-string rendering of an Optional[str]. -/
def fstrOpt : Option String → String
  | some s => s
  | none => "None"

/-- BaseAgent._execute_action (base.py lines 475-516): unknown names
yield an error observation; a raising execute is caught and converted;
otherwise success and failure results are rendered with their structured
data. -/
def executeAction (tools : List (String × PyTool)) (actionName : String)
    (actionInput : PyDict) : String × PyDict :=
  match pyAssocLookup tools actionName with
  | none =>
    let msg := unknownToolMsg tools actionName
    (msg, [("error", .vStr msg)])
  | some tool =>
    match tool.execute actionInput with
    | .ok result =>
      if result.success then
        (result.output,
         [("success", .vBool true), ("output", .vStr result.output),
          ("data", result.data.getD .vNull), ("metadata", .vDict result.metadata)])
      else
        ("工具执行失败: " ++ fstrOpt result.error,
         [("error", optValOfStr result.error), ("success", .vBool false)])
    | .error e =>
      let msg := "工具执行异常: " ++ e
      (msg, [("error", .vStr msg), ("success", .vBool false)])

/-- BaseAgent.get_tools_description (base.py lines 346-361). -/
def toolsDescription (tools : List (String × PyTool)) : String :=
  String.intercalate "\n" (tools.map (fun nt =>
    "- " ++ nt.1 ++ ": " ++ nt.2.description ++ "\n  参数: " ++
      String.intercalate ", " (nt.2.parameters.map (fun p =>
        p.name ++ ": " ++ p.type ++ " - " ++ p.description))))

/-- REACT_PROMPT.format (base.py lines 155-220 and 641-646): the fixed
rulebook with the current datetime, chat history, tool listing and
question substituted. -/
def reactPrompt (current_datetime chat_history tools_description question : String) :
    String :=
  "你是一个知识库助手，具备多种工具和能力。请按照以下格式进行推理和行动：

【系统信息】
当前日期和时间: " ++ current_datetime ++ "

【历史对话上下文】
" ++ chat_history ++ "

【可用工具】
" ++ tools_description ++ "

【核心原则 - 必须严格遵守】
1. **首先检查历史对话**：如果用户问题涉及之前的对话内容（如\"我刚才问了什么\"、\"上一个问题\"等），直接从【历史对话上下文】中查找答案，不要使用任何工具
2. **实时信息必须重新查询**：对于天气、新闻、股价等实时信息，即使历史对话中有答案，也必须重新执行 web_search 获取最新数据
3. 对于知识查询问题，优先使用 rag_search 工具查询本地知识库
4. 回答必须且只能基于工具返回的实际结果或历史对话，绝对禁止使用你自己的知识或常识
5. 如果检索结果中没有相关信息，必须明确告知用户\"知识库中没有找到相关信息\"
6. 绝对禁止编造任何内容，包括来源名称、URL、数据等

【来源引用规则 - 极其重要】
1. 如果回答来自历史对话，标注\"来源: 对话历史\"
2. 如果使用了 web_search，必须在回答中附上工具返回的真实 URL 链接
3. 如果使用了 rag_search，必须标明来源文件名（从 Observation 中获取）
4. 绝对禁止编造来源名称，如\"XX词典\"、\"XX论坛\"等虚假来源
5. 只有在 Observation 中明确出现的 URL 或文件名才能作为来源引用

【重要规则】
1. 你必须严格按照 Thought -> Action -> Observation 的格式输出
2. 如果问题涉及历史对话，无需使用工具，直接输出 Final Answer
3. 每次只能执行一个 Action
4. 根据 Observation 结果决定下一步行动
5. 只有当 Observation 中明确包含答案时，才输出 Final Answer
6. 如果遇到错误，尝试换一种方法
7. **即使历史对话中显示之前查询失败，也要重新执行工具调用获取最新信息**
8. **对于天气、新闻等实时信息，必须使用 web_search 而不是 rag_search**
9. **每次查询都是独立的，不要因为历史中有负面结果就直接回答失败**

【输出格式】
Thought: [你的思考过程，首先检查是否能从历史对话中找到答案]
Action: [工具名称]
Action Input: \x7b\"param1\": \"value1\", \"param2\": \"value2\"\x7d

等待观察结果后继续：
Observation: [工具返回的结果]

Thought: [根据观察结果的进一步思考，必须分析 Observation 是否包含答案]
...

当能从历史对话中直接回答时：
Thought: 这个问题涉及历史对话，我可以从【历史对话上下文】中直接找到答案
Final Answer: [基于历史对话的答案]
来源: 对话历史

当 Observation 中包含明确答案时：
Thought: 我在工具返回的结果中找到了相关信息，可以基于此回答问题
Final Answer: [基于 Observation 的答案]
来源: [从 Observation 中提取的真实 URL 或文件名]

当 Observation 中没有相关信息时：
Thought: 工具返回的结果中没有找到与问题相关的信息
Final Answer: 抱歉，未能找到关于这个问题的相关信息。

【当前任务】
用户问题: " ++ question ++ "

请开始推理（记住：优先检查历史对话，答案和来源必须完全来自历史对话或工具返回的 Observation，禁止编造）："

/-- REFLECTION_PROMPT.format (base.py lines 230-245 and 528-532). -/
def reflectionPrompt (question answer tools_used : String) : String :=
  "请反思以下回答的质量：

问题: " ++ question ++ "
回答: " ++ answer ++ "
使用的工具: " ++ tools_used ++ "

请严格评估：
1. 回答是否完全基于工具返回的结果？（绝不能使用外部知识）
2. 如果引用了来源，这些来源是否是真实的 URL 链接或文件名？
3. 是否存在编造的来源名称（如\"XX词典\"、\"XX论坛\"等没有具体 URL 的来源）？
4. 回答内容是否确实在工具返回的 Observation 中出现过？
5. 是否有编造、推测或使用常识的痕迹？

如果回答完全基于工具结果且来源真实，输出: APPROVED
如果发现有编造来源或使用外部知识，输出: RETRY: 来源必须是真实的 URL 或文件名，禁止编造
如果需要其他改进，输出: RETRY: [改进建议]"

/-- The model-calling collaborator: successive invocations of
self.llm.invoke within one run, indexed by call order and receiving the
prompt; an exception is the error case carrying str(e). -/
abbrev LlmOracle := Nat → String → Except String String

/-- BaseAgent._reflect (base.py lines 518-573), with the call outcome
drawn from the oracle at the given call index.  Returns the (approved,
suggestion) pair and the next call index. -/
def reflect (enable_reflection : Bool) (llm : LlmOracle) (callIdx : Nat)
    (question answer : String) (tools_used : List String) :
    (Bool × Option String) × Nat :=
  if !enable_reflection then ((true, none), callIdx)
  else
    let prompt := reflectionPrompt question answer
      (if tools_used.isEmpty then "无" else String.intercalate ", " tools_used)
    match llm callIdx prompt with
    | .error _ => ((true, none), callIdx + 1)
    | .ok result =>
      if containsSub ("APPROVED".toList) (pyUpper result).toList then ((true, none), callIdx + 1)
      else
        match searchMarkerTail ("RETRY:".toList) result.toList with
        | some tail => ((false, some ⟨stripList tail⟩), callIdx + 1)
        | none => ((true, none), callIdx + 1)

/-- The thought text recorded for a step (base.py lines 698-704):
the captured group stripped, or the whole output when the regex does not
match. -/
def thoughtOf (llmOutput : String) : String :=
  match searchThought llmOutput.toList with
  | some g => ⟨stripList g⟩
  | none => llmOutput

/-- Mutable state of one run's reasoning loop, together with the
instrumentation this model adds (the model-call count and the list of
tools whose execute was actually invoked). -/
structure LoopState where
  currentPrompt : String
  iterations : Nat
  thoughtHistory : List ThoughtStep
  toolsUsed : List String
  llmCalls : Nat
  toolInvocations : List String

/-- Outcome of one iteration of the loop body. -/
inductive StepOut where
  | exitFailed (msg : String) (st : LoopState)
  | exitFinal (ans : String) (st : LoopState)
  | next (st : LoopState)

/-- One iteration of the while body of BaseAgent.run (base.py lines
654-761): invoke the model (an exception returns the failure response
with the partial transcript — no step is recorded for the aborted
iteration), parse, record the step, and exit on a final answer, execute a
parsed action, or re-prompt when nothing parsed. -/
def loopIter (jl : String → Option PyDict) (llm : LlmOracle)
    (tools : List (String × PyTool)) (st : LoopState) : StepOut :=
  let iters := st.iterations + 1
  match llm st.llmCalls st.currentPrompt with
  | .error e =>
    .exitFailed e { st with iterations := iters, llmCalls := st.llmCalls + 1 }
  | .ok llmOutput =>
    let st1 := { st with iterations := iters, llmCalls := st.llmCalls + 1 }
    match parseAction jl llmOutput with
    | .finalAns ans =>
      let stp : ThoughtStep :=
        { step := iters, thought := thoughtOf llmOutput,
          action := some "__final__", action_input := none,
          observation := some "已得出最终答案" }
      .exitFinal ans { st1 with thoughtHistory := st1.thoughtHistory ++ [stp] }
    | .action name input =>
      let obs := executeAction tools name input
      let stp : ThoughtStep :=
        { step := iters, thought := thoughtOf llmOutput,
          action := some name, action_input := some input,
          observation := some obs.1, observation_data := some obs.2 }
      .next { st1 with
        thoughtHistory := st1.thoughtHistory ++ [stp],
        toolsUsed := st1.toolsUsed ++ [name],
        toolInvocations := st1.toolInvocations ++
          (if (pyAssocLookup tools name).isSome then [name] else []),
        currentPrompt := st1.currentPrompt ++ "\n\n" ++ llmOutput ++
          "\n\nObservation: " ++ obs.1 ++ "\n\n请继续推理：" }
    | .noAction =>
      let stp : ThoughtStep :=
        { step := iters, thought := thoughtOf llmOutput,
          action := none, action_input := none,
          observation := some "未识别到有效动作，请按格式输出 Action 或 Final Answer" }
      .next { st1 with
        thoughtHistory := st1.thoughtHistory ++ [stp],
        currentPrompt := st1.currentPrompt ++ "\n\n" ++ llmOutput ++
          "\n\n请按照正确格式输出 Action 或 Final Answer：" }

/-- Exit of the reasoning loop: the model failure path, or the loop
ending with an optional final answer (none = budget exhausted). -/
inductive LoopExit where
  | llmFailed (msg : String) (st : LoopState)
  | finished (finalAnswer : Option String) (st : LoopState)

/-- The while loop of BaseAgent.run.  The while condition is checked
against max_iterations exactly as the source does; the fuel only bounds
the recursion and is chosen by the caller so that it outlasts the
condition (the condition fails after at most max(max_iterations, 0)
iterations, each consuming one fuel). -/
def runLoop (jl : String → Option PyDict) (llm : LlmOracle)
    (tools : List (String × PyTool)) (maxIter : Int) :
    Nat → LoopState → LoopExit
  | 0, st => .finished none st
  | fuel + 1, st =>
    if (st.iterations : Int) < maxIter then
      match loopIter jl llm tools st with
      | .exitFailed e st' => .llmFailed e st'
      | .exitFinal a st' => .finished (some a) st'
      | .next st' => runLoop jl llm tools maxIter fuel st'
    else .finished none st

/-- Python `x or default` on an optional string: None and the empty
string both fall back. -/
def pyOrElse (v : Option String) (d : String) : String :=
  match v with
  | some s => if s = "" then d else s
  | none => d

/-- Python truthiness of an optional string, as `if final_answer and ...`
and `if not approved and suggestion:` test it. -/
def pyTruthy (v : Option String) : Bool :=
  match v with
  | some s => s != ""
  | none => false

/-- Python list(set(xs)).  Its order is unspecified (string hashing);
the source only relies on membership, and this model uses Mathlib
deduplication. -/
def pySetList (l : List String) : List String :=
  l.dedup

/-- The fixed exhaustion answer of BaseAgent.run (base.py line 784). -/
def exhaustedAnswer : String := "无法得出答案，已达到最大迭代次数"

/-- What a run returns, with the final AgentState and this model's
instrumentation alongside the AgentResponse. -/
structure RunOutput where
  resp : AgentResponse
  finalState : AgentState
  llmCalls : Nat
  toolInvocations : List String

/-- The closing section of BaseAgent.run (base.py lines 763-789): from
the loop's exit, the failure response, or the reflection pass followed by
the final response. -/
def assembleRun (llm : LlmOracle) (cfg : AgentConfig) (question : String) :
    LoopExit → RunOutput
  | .llmFailed e st =>
    { resp :=
        { success := false, answer := "LLM 调用失败: " ++ e,
          thought_process := st.thoughtHistory, tools_used := st.toolsUsed,
          iterations := st.iterations, final_reflection := none },
      finalState := .error, llmCalls := st.llmCalls,
      toolInvocations := st.toolInvocations }
  | .finished fa st =>
    let reflOut :=
      if pyTruthy fa then
        reflect cfg.enable_reflection llm st.llmCalls question (fa.getD "") st.toolsUsed
      else ((true, none), st.llmCalls)
    let reflection_result : Option String :=
      if !reflOut.1.1 && pyTruthy reflOut.1.2 then reflOut.1.2 else none
    { resp :=
        { success := fa.isSome, answer := pyOrElse fa exhaustedAnswer,
          thought_process := st.thoughtHistory, tools_used := pySetList st.toolsUsed,
          iterations := st.iterations, final_reflection := reflection_result },
      finalState := .completed, llmCalls := reflOut.2,
      toolInvocations := st.toolInvocations }

/-- BaseAgent.run (base.py lines 614-789).  current_datetime stands for
the wall clock read at the start of the run. -/
def run (jl : String → Option PyDict) (llm : LlmOracle)
    (tools : List (String × PyTool)) (cfg : AgentConfig)
    (question chat_history current_datetime : String) : RunOutput :=
  let prompt := reactPrompt current_datetime
    (if chat_history = "" then "无" else chat_history)
    (toolsDescription tools) question
  assembleRun llm cfg question
    (runLoop jl llm tools cfg.max_iterations cfg.max_iterations.toNat
      ⟨prompt, 0, [], [], 0, []⟩)

/-! Streaming adapter (BaseAgent.run_stream, base.py lines 791-994). -/

/-- Payload of a StreamEvent.  The source stores heterogeneous Python
values; the constructors cover the shapes run_stream emits.  The meta
event's elapsed wall-clock seconds (a float read from the system clock)
is not tracked by this model. -/
inductive EventData where
  | nothing
  | text (s : String)
  | iterInfo (iteration : Nat) (maxIter : Int)
  | actionInfo (tool : String) (input : PyDict)
  | obsInfo (text : String) (data : PyDict)
  | metaInfo (tools_used : List String) (iterations : Nat)

/-- StreamEvent (base.py lines 20-27). -/
structure StreamEvent where
  type : String
  data : EventData := .nothing
  step : Nat := 0

/-- State of the token loop of run_stream (base.py lines 842-884):
the accumulated raw output, the flag marking that the Final-Answer
marker has been seen, and the accumulated answer text. -/
structure TokenState where
  llmOutput : String
  isFinal : Bool
  buffer : String

/-- The initial token state of an iteration. -/
def initTokenState : TokenState := ⟨"", false, ""⟩

/-- The text after the first "Final Answer:" occurrence (Python
find + slice; the caller established that the marker occurs). -/
def afterFirstMarker (s : String) : String :=
  match splitAtFirst ("Final Answer:".toList) s.toList with
  | some (_, post) => ⟨post⟩
  | none => ""

/-- One fragment of the streaming model call (base.py lines 849-884):
append the token; on the first appearance of the complete marker in the
accumulated output, emit answer_start and, when the tail after the marker
(lstripped) is nonempty, one answer_token carrying it; afterwards every
fragment is emitted as its own answer_token; before the marker appears
nothing is emitted. -/
def processChunk (st : TokenState) (token : String) (stepIdx : Nat) :
    TokenState × List StreamEvent :=
  let out := st.llmOutput ++ token
  if !st.isFinal && containsSubstr out "Final Answer:" then
    let tailPart := pyLStrip (afterFirstMarker out)
    (⟨out, true, tailPart⟩,
      ⟨"answer_start", .nothing, stepIdx⟩ ::
        (if tailPart ≠ "" then [⟨"answer_token", .text tailPart, stepIdx⟩] else []))
  else if st.isFinal then
    (⟨out, true, st.buffer ++ token⟩, [⟨"answer_token", .text token, stepIdx⟩])
  else
    (⟨out, false, st.buffer⟩, [])

/-- The whole token loop over the fragments one streaming model call
delivers. -/
def processChunks (st : TokenState) (chunks : List String) (stepIdx : Nat) :
    TokenState × List StreamEvent :=
  match chunks with
  | [] => (st, [])
  | t :: rest =>
    let r := processChunk st t stepIdx
    let r' := processChunks r.1 rest stepIdx
    (r'.1, r.2 ++ r'.2)

/-- The streaming model collaborator: per call, the fragments delivered
and, optionally, the exception that interrupts the stream after them. -/
abbrev LlmStreamOracle := Nat → String → List String × Option String

/-- One iteration of the while body of run_stream (base.py lines
831-957), producing the events it yields alongside the step outcome.
Yields iteration and thinking_start, streams the fragments through the
token loop, and either aborts on the model exception (error event, no
thinking_end) or continues with thinking_end and the same
parse/record/execute logic as the blocking loop, with action,
observation and answer events. -/
def streamIter (jl : String → Option PyDict) (llmS : LlmStreamOracle)
    (tools : List (String × PyTool)) (maxIter : Int) (st : LoopState) :
    List StreamEvent × StepOut :=
  let iters := st.iterations + 1
  let headEvs : List StreamEvent :=
    [⟨"iteration", .iterInfo iters maxIter, iters⟩, ⟨"thinking_start", .nothing, iters⟩]
  let stream := llmS st.llmCalls st.currentPrompt
  let tok := processChunks initTokenState stream.1 iters
  let llmOutput := tok.1.llmOutput
  match stream.2 with
  | some e =>
    (headEvs ++ tok.2 ++ [⟨"error", .text ("LLM 调用失败: " ++ e), 0⟩],
      .exitFailed e { st with iterations := iters, llmCalls := st.llmCalls + 1 })
  | none =>
    let evs1 := headEvs ++ tok.2 ++ [⟨"thinking_end", .text llmOutput, iters⟩]
    let st1 := { st with iterations := iters, llmCalls := st.llmCalls + 1 }
    match parseAction jl llmOutput with
    | .finalAns ans =>
      let stp : ThoughtStep :=
        { step := iters, thought := thoughtOf llmOutput,
          action := some "__final__", action_input := none,
          observation := some "已得出最终答案" }
      (evs1 ++ [⟨"answer", .text ans, iters⟩],
        .exitFinal ans { st1 with thoughtHistory := st1.thoughtHistory ++ [stp] })
    | .action name input =>
      let obs := executeAction tools name input
      let stp : ThoughtStep :=
        { step := iters, thought := thoughtOf llmOutput,
          action := some name, action_input := some input,
          observation := some obs.1, observation_data := some obs.2 }
      (evs1 ++ [⟨"action", .actionInfo name input, iters⟩,
          ⟨"observation", .obsInfo ⟨obs.1.toList.take 500⟩ obs.2, iters⟩],
        .next { st1 with
          thoughtHistory := st1.thoughtHistory ++ [stp],
          toolsUsed := st1.toolsUsed ++ [name],
          toolInvocations := st1.toolInvocations ++
            (if (pyAssocLookup tools name).isSome then [name] else []),
          currentPrompt := st1.currentPrompt ++ "\n\n" ++ llmOutput ++
            "\n\nObservation: " ++ obs.1 ++ "\n\n请继续推理：" })
    | .noAction =>
      let stp : ThoughtStep :=
        { step := iters, thought := thoughtOf llmOutput,
          action := none, action_input := none,
          observation := some "未识别到有效动作，请按格式输出 Action 或 Final Answer" }
      (evs1,
        .next { st1 with
          thoughtHistory := st1.thoughtHistory ++ [stp],
          currentPrompt := st1.currentPrompt ++ "\n\n" ++ llmOutput ++
            "\n\n请按照正确格式输出 Action 或 Final Answer：" })

/-- The while loop of run_stream, accumulating events. -/
def runStreamLoop (jl : String → Option PyDict) (llmS : LlmStreamOracle)
    (tools : List (String × PyTool)) (maxIter : Int) :
    Nat → LoopState → List StreamEvent × LoopExit
  | 0, st => ([], .finished none st)
  | fuel + 1, st =>
    if (st.iterations : Int) < maxIter then
      match streamIter jl llmS tools maxIter st with
      | (evs, .exitFailed e st') => (evs, .llmFailed e st')
      | (evs, .exitFinal a st') => (evs, .finished (some a) st')
      | (evs, .next st') =>
        let r := runStreamLoop jl llmS tools maxIter fuel st'
        (evs ++ r.1, r.2)
    else ([], .finished none st)

/-- BaseAgent.run_stream (base.py lines 791-994): the events yielded and
the AgentResponse returned, with the final AgentState.  The loop streams
from self.llm_streaming (llmS); _reflect still calls the non-streaming
self.llm (llm), here at its first call.  On the model failure path no
meta/done events are emitted; otherwise reflection may add
reflecting/reflection_result events before meta and done. -/
def runStream (jl : String → Option PyDict) (llmS : LlmStreamOracle) (llm : LlmOracle)
    (tools : List (String × PyTool)) (cfg : AgentConfig)
    (question chat_history current_datetime : String) :
    List StreamEvent × AgentResponse × AgentState :=
  let prompt := reactPrompt current_datetime
    (if chat_history = "" then "无" else chat_history)
    (toolsDescription tools) question
  let st0 : LoopState := ⟨prompt, 0, [], [], 0, []⟩
  let startEv : StreamEvent := ⟨"start", .text "开始推理...", 0⟩
  match runStreamLoop jl llmS tools cfg.max_iterations cfg.max_iterations.toNat st0 with
  | (evs, .llmFailed e st) =>
    (startEv :: evs,
      { success := false, answer := "LLM 调用失败: " ++ e,
        thought_process := st.thoughtHistory, tools_used := st.toolsUsed,
        iterations := st.iterations, final_reflection := none },
      .error)
  | (evs, .finished fa st) =>
    let doRefl := pyTruthy fa && cfg.enable_reflection
    let reflOut :=
      if doRefl then
        reflect cfg.enable_reflection llm 0 question (fa.getD "") st.toolsUsed
      else ((true, none), 0)
    let reflection_result : Option String :=
      if !reflOut.1.1 && pyTruthy reflOut.1.2 then reflOut.1.2 else none
    let reflEvs : List StreamEvent :=
      (if doRefl then [⟨"reflecting", .text "正在反思检查...", 0⟩] else []) ++
      (match reflection_result with
       | some s => [⟨"reflection_result", .text s, 0⟩]
       | none => [])
    (startEv :: (evs ++ reflEvs ++
        [⟨"meta", .metaInfo (pySetList st.toolsUsed) st.iterations, 0⟩,
         ⟨"done", .nothing, 0⟩]),
      { success := fa.isSome, answer := pyOrElse fa exhaustedAnswer,
        thought_process := st.thoughtHistory, tools_used := pySetList st.toolsUsed,
        iterations := st.iterations, final_reflection := reflection_result },
      .completed)

/-- Net brace depth contributed by a character list. -/
def braceDepth (l : List Char) : Int :=
  (l.count '{' : Int) - (l.count '}' : Int)

/-- Decidable form of minimal brace balance: the text opens with a brace,
its total depth is zero, and every proper nonempty prefix has positive
depth (so the closing brace of the opening one is the final
character). -/
def minimalBalancedB (body : List Char) : Bool :=
  body.head? = some '{' && braceDepth body = 0 &&
    (List.range body.length).all (fun k => k == 0 || decide (0 < braceDepth (body.take k)))

/-- The last value a key takes in a pair list (what dict(pairs) retains
for duplicate keys). -/
def lastAssoc (ps : List (String × PyVal)) (k : String) : Option PyVal :=
  match ps with
  | [] => none
  | (k', v) :: rest =>
    match lastAssoc rest k with
    | some v' => some v'
    | none => if k' = k then some v else none

/-- The first value a key takes in a pair list. -/
def firstAssoc (ps : List (String × PyVal)) (k : String) : Option PyVal :=
  match ps with
  | [] => none
  | (k', v) :: rest => if k' = k then some v else firstAssoc rest k

/-- A tool whose execute raises (as a tool reading a missing kwargs entry
would), for the C7 witness. -/
def crashingTool : PyTool :=
  { name := "rag_search", description := "查询本地知识库",
    category := .retrieval,
    parameters := [{ name := "query", type := "string", description := "查询内容" }],
    execute := fun _ => .error "KeyError: 'query'" }

/-- A first tool named dup, for the C9 counterexample. -/
def dupToolFirst : PyTool :=
  { name := "dup", description := "first", category := .utility, parameters := [],
    execute := fun _ => .ok { success := true, output := "" } }

/-- A second, different tool with the same name. -/
def dupToolSecond : PyTool :=
  { name := "dup", description := "second", category := .utility, parameters := [],
    execute := fun _ => .ok { success := true, output := "" } }

/-- The always-raising model collaborator of the C1 counterexample. -/
def llmBoom : LlmOracle := fun _ _ => .error "boom"

/-- The scripted model of the C3 scenario: first an action naming an
unregistered capability, then a final answer. -/
def llmUnknownTool : LlmOracle := fun i _ =>
  if i = 0 then .ok "Thought: t\nAction: nonexistent_tool\nAction Input: \x7b\"q\": \"x\"\x7d"
  else .ok "Final Answer: done"

/-- Concatenation of the fragments a streaming call delivers. -/
def concatStrings : List String → String
  | [] => ""
  | s :: rest => s ++ concatStrings rest

/-- The fragment sequence of the claim's Scenario E. -/
def scenarioEOracle : LlmStreamOracle :=
  fun _ _ => (["Tho", "ught: a\nFinal ", "Answer: hi"], none)

theorem length_dropWhile_le' (p : Char → Bool) (l : List Char) :
    (l.dropWhile p).length ≤ l.length := by
  induction l with
  | nil => simp [List.dropWhile]
  | cons c rest ih =>
    simp only [List.dropWhile]
    cases p c
    · simp
    · simp; omega

theorem length_drop_le' (l : List Char) (n : Nat) : (l.drop n).length ≤ l.length := by
  simp only [List.length_drop]
  omega

theorem matchStringPair_shrinks (l k v rem : List Char)
    (h : matchStringPair l = some (k, v, rem)) : rem.length < l.length := by
  match l with
  | [] => simp [matchStringPair] at h
  | c :: rest =>
    by_cases hc : c = '"'
    · subst hc
      simp only [matchStringPair] at h
      split at h
      · exact absurd h (by simp)
      · split at h
        · rename_i r2 heq
          split at h
          · rename_i r4 heq4
            split at h
            · rename_i r5 heq5
              simp only [Option.some.injEq, Prod.mk.injEq] at h
              obtain ⟨-, -, hrem⟩ := h
              subst hrem
              have h5 : r5.length < r4.length := by
                have := congrArg List.length heq5
                simp at this
                have hd : (r4.drop (r4.takeWhile (fun c => c != '"')).length).length ≤ r4.length := by
                  simp
                omega
              have h4 : r4.length < r2.length := by
                have := congrArg List.length heq4
                have hd := length_dropWhile_le' pyIsSpace r2
                simp at this
                omega
              have h2 : r2.length < rest.length := by
                have := congrArg List.length heq
                simp at this
                have hd : (rest.drop (rest.takeWhile pyIsWord).length).length ≤ rest.length := by
                  simp
                omega
              simp only [List.length_cons]
              omega
            · exact absurd h (by simp)
          · exact absurd h (by simp)
        · exact absurd h (by simp)
    · rw [matchStringPair.eq_def] at h
      match rest with
      | _ => simp_all

theorem matchNumPair_shrinks (l k v rem : List Char)
    (h : matchNumPair l = some (k, v, rem)) : rem.length < l.length := by
  match l with
  | [] => simp [matchNumPair] at h
  | c :: rest =>
    by_cases hc : c = '"'
    · subst hc
      simp only [matchNumPair] at h
      split at h
      · exact absurd h (by simp)
      · split at h
        · rename_i r2 heq
          have h2 : r2.length < rest.length := by
            have := congrArg List.length heq
            simp at this
            have hd : (rest.drop (rest.takeWhile pyIsWord).length).length ≤ rest.length := by
              simp
            omega
          have h3 : (r2.dropWhile pyIsSpace).length ≤ r2.length :=
            length_dropWhile_le' pyIsSpace r2
          have h4 := length_drop_le' (r2.dropWhile pyIsSpace)
            ((r2.dropWhile pyIsSpace).takeWhile Char.isDigit).length
          split at h
          · exact absurd h (by simp)
          · split at h
            · simp only [Option.some.injEq, Prod.mk.injEq] at h
              obtain ⟨-, -, hrem⟩ := h
              subst hrem
              simp only [List.length_cons]
              have h5 := length_drop_le'
                (((r2.dropWhile pyIsSpace).drop
                  ((r2.dropWhile pyIsSpace).takeWhile Char.isDigit).length).drop 1)
                ((((r2.dropWhile pyIsSpace).drop
                  ((r2.dropWhile pyIsSpace).takeWhile Char.isDigit).length).drop
                  1).takeWhile Char.isDigit).length
              have h6 := length_drop_le'
                ((r2.dropWhile pyIsSpace).drop
                  ((r2.dropWhile pyIsSpace).takeWhile Char.isDigit).length) 1
              omega
            · simp only [Option.some.injEq, Prod.mk.injEq] at h
              obtain ⟨-, -, hrem⟩ := h
              subst hrem
              simp only [List.length_cons]
              omega
        · exact absurd h (by simp)
    · rw [matchNumPair.eq_def] at h
      match rest with
      | _ => simp_all

theorem matchBoolPair_shrinks (l k rem : List Char) (v : Bool)
    (h : matchBoolPair l = some (k, v, rem)) : rem.length < l.length := by
  match l with
  | [] => simp [matchBoolPair] at h
  | c :: rest =>
    by_cases hc : c = '"'
    · subst hc
      simp only [matchBoolPair] at h
      split at h
      · exact absurd h (by simp)
      · split at h
        · rename_i r2 heq
          have h2 : r2.length < rest.length := by
            have := congrArg List.length heq
            simp at this
            have hd : (rest.drop (rest.takeWhile pyIsWord).length).length ≤ rest.length := by
              simp
            omega
          have h3 : (r2.dropWhile pyIsSpace).length ≤ r2.length :=
            length_dropWhile_le' pyIsSpace r2
          split at h
          · simp only [Option.some.injEq, Prod.mk.injEq] at h
            obtain ⟨-, -, hrem⟩ := h
            subst hrem
            simp only [List.length_cons]
            have : ((r2.dropWhile pyIsSpace).drop 4).length ≤ (r2.dropWhile pyIsSpace).length := by
              simp
            omega
          · split at h
            · simp only [Option.some.injEq, Prod.mk.injEq] at h
              obtain ⟨-, -, hrem⟩ := h
              subst hrem
              simp only [List.length_cons]
              have : ((r2.dropWhile pyIsSpace).drop 5).length ≤
                  (r2.dropWhile pyIsSpace).length := by simp
              omega
            · exact absurd h (by simp)
        · exact absurd h (by simp)
    · rw [matchBoolPair.eq_def] at h
      match rest with
      | _ => simp_all

/-! Helper lemmas about the marker scanners. -/

theorem splitAtFirst_to_search (pat : List Char) (l pre post : List Char)
    (h : splitAtFirst pat l = some (pre, post)) (hne : post ≠ []) :
    searchMarkerTail pat l = some post := by
  induction l generalizing pre with
  | nil =>
    simp only [splitAtFirst] at h
    split at h
    · simp only [Option.some.injEq, Prod.mk.injEq] at h
      exact absurd h.2.symm hne
    · exact absurd h (by simp)
  | cons c rest ih =>
    simp only [splitAtFirst] at h
    by_cases hp : pat.isPrefixOf (c :: rest)
    · rw [if_pos hp] at h
      simp only [Option.some.injEq, Prod.mk.injEq] at h
      obtain ⟨-, hpost⟩ := h
      simp only [searchMarkerTail]
      rw [if_pos]
      · rw [hpost]
      · rw [hp, hpost]
        simp only [Bool.true_and, Bool.not_eq_true']
        exact List.isEmpty_eq_false_iff_exists_mem.mpr
          (match post, hne with
           | a :: _, _ => ⟨a, by simp⟩)
    · rw [if_neg hp] at h
      match hsp : splitAtFirst pat rest with
      | none => rw [hsp] at h; exact absurd h (by simp)
      | some (pre', post') =>
        rw [hsp] at h
        simp only [Option.map_some', Option.some.injEq, Prod.mk.injEq] at h
        obtain ⟨-, hpost⟩ := h
        subst hpost
        simp only [searchMarkerTail]
        rw [if_neg (by simp [hp])]
        exact ih pre' hsp

/-- C2: for every model output in which the marker "Final Answer:" is
followed by at least one character, _parse_action returns the final tag
with everything after the first marker occurrence, stripped, and in
particular never an Action.  (The claim as frozen, without the
nonempty-tail proviso, is false: see the counterexample.) -/
theorem parse_final_answer_amended (jl : String → Option PyDict) (s : String)
    (pre post : List Char)
    (h : splitAtFirst ("Final Answer:".toList) s.toList = some (pre, post))
    (hne : post ≠ []) :
    parseAction jl s = .finalAns ⟨stripList post⟩ ∧
      ∀ name input, parseAction jl s ≠ .action name input := by
  have hs := splitAtFirst_to_search _ _ _ _ h hne
  constructor
  · simp only [parseAction, hs]
  · intro name input
    simp only [parseAction, hs]
    exact fun hcon => ParsedAction.noConfusion hcon

/-- C2 witness: a concrete output where the amended claim applies. -/
theorem parse_final_answer_amended_witness :
    parseAction jsonLoadsDict "Thought: ok\nFinal Answer: 42\n来源: x" =
        .finalAns ⟨stripList (" 42\n来源: x".toList)⟩ ∧
      ∀ name input,
        parseAction jsonLoadsDict "Thought: ok\nFinal Answer: 42\n来源: x" ≠
          .action name input :=
  parse_final_answer_amended jsonLoadsDict "Thought: ok\nFinal Answer: 42\n来源: x"
    ("Thought: ok\n".toList) (" 42\n来源: x".toList) (by decide) (by decide)

/-- C2 counterexample: an output that contains the literal marker but
ends exactly at it is classified as an Action, not as a final answer. -/
theorem parse_final_answer_claim_false :
    containsSubstr "Action: foo\nFinal Answer:" "Final Answer:" = true ∧
      parseActionC "Action: foo\nFinal Answer:" = .action "foo" [] := by
  constructor
  · decide
  · rfl

/-! C4: the brace-depth extraction. -/

theorem braceDepth_nil : braceDepth [] = 0 := by
  simp [braceDepth]

theorem braceDepth_cons_open (l : List Char) : braceDepth ('{' :: l) = braceDepth l + 1 := by
  simp [braceDepth, List.count_cons]
  omega

theorem braceDepth_cons_close (l : List Char) : braceDepth ('}' :: l) = braceDepth l - 1 := by
  simp [braceDepth, List.count_cons]
  omega

theorem braceDepth_cons_other (c : Char) (l : List Char) (h1 : c ≠ '{') (h2 : c ≠ '}') :
    braceDepth (c :: l) = braceDepth l := by
  simp only [braceDepth, List.count_cons, beq_iff_eq]
  rw [if_neg h1, if_neg h2]
  simp

theorem braceScanAux_open (rest : List Char) (d : Int) (i : Nat) :
    braceScanAux ('{' :: rest) d i = braceScanAux rest (d + 1) (i + 1) := by
  simp [braceScanAux]

theorem braceScanAux_close (rest : List Char) (d : Int) (i : Nat) :
    braceScanAux ('}' :: rest) d i =
      if d - 1 = 0 then some (i + 1) else braceScanAux rest (d - 1) (i + 1) := by
  simp [braceScanAux]

theorem braceScanAux_other (c : Char) (rest : List Char) (d : Int) (i : Nat)
    (h1 : c ≠ '{') (h2 : c ≠ '}') :
    braceScanAux (c :: rest) d i = braceScanAux rest d (i + 1) := by
  simp [braceScanAux, h1, h2]

/-- The brace scan, started strictly inside an open brace group, stops
exactly where the running depth first returns to zero, independently of
whatever follows. -/
theorem braceScanAux_balanced (body : List Char) :
    ∀ (tail : List Char) (d : Int) (i : Nat), 0 < d →
      (∀ k, 1 ≤ k → k < body.length → 0 < d + braceDepth (body.take k)) →
      d + braceDepth body = 0 →
      braceScanAux (body ++ tail) d i = some (i + body.length) := by
  induction body with
  | nil =>
    intro tail d i hd hpre hfin
    rw [braceDepth_nil] at hfin
    omega
  | cons c rest ih =>
    intro tail d i hd hpre hfin
    by_cases hc : c = '{'
    · subst hc
      rw [braceDepth_cons_open] at hfin
      rw [List.cons_append, braceScanAux_open]
      rw [ih tail (d + 1) (i + 1) (by omega)
        (fun k hk1 hk2 => by
          have := hpre (k + 1) (by omega) (by simp; omega)
          rw [List.take_succ_cons, braceDepth_cons_open] at this
          omega)
        (by omega)]
      simp
      omega
    · by_cases hc2 : c = '}'
      · subst hc2
        rw [braceDepth_cons_close] at hfin
        rw [List.cons_append, braceScanAux_close]
        by_cases hd1 : d - 1 = 0
        · rw [if_pos hd1]
          have hrest : rest = [] := by
            by_contra hne
            have hlen : 1 < (('}' : Char) :: rest).length := by
              simp
              exact List.length_pos.mpr hne
            have := hpre 1 le_rfl hlen
            simp only [List.take_succ_cons, List.take_zero, braceDepth_cons_close,
              braceDepth_nil] at this
            omega
          subst hrest
          simp
        · rw [if_neg hd1]
          rw [ih tail (d - 1) (i + 1)
            (by omega)
            (fun k hk1 hk2 => by
              have := hpre (k + 1) (by omega) (by simp; omega)
              rw [List.take_succ_cons, braceDepth_cons_close] at this
              omega)
            (by omega)]
          simp
          omega
      · rw [braceDepth_cons_other c rest hc hc2] at hfin
        rw [List.cons_append, braceScanAux_other c _ _ _ hc hc2]
        rw [ih tail d (i + 1) hd
          (fun k hk1 hk2 => by
            have := hpre (k + 1) (by omega) (by simp; omega)
            rw [List.take_succ_cons, braceDepth_cons_other c _ hc hc2] at this
            omega)
          hfin]
        simp
        omega

/-- C4: when the stripped content after the first "Action Input:" starts
with a minimally brace-balanced text (arbitrary nesting, braces counted
blindly, so braces inside string content count too), the extraction
returns exactly that text through its matching closing brace, whatever
follows it. -/
theorem action_input_brace_extraction (s : String) (pre post body tail : List Char)
    (h1 : splitAtFirst ("Action Input:".toList) s.toList = some (pre, post))
    (h2 : stripList post = body ++ tail)
    (h3 : minimalBalancedB body = true) :
    extractActionInput s.toList = some body := by
  simp only [minimalBalancedB, Bool.and_eq_true, List.all_eq_true, List.mem_range,
    decide_eq_true_eq, beq_iff_eq, Bool.or_eq_true] at h3
  obtain ⟨⟨hhead, hdep⟩, hall⟩ := h3
  match body with
  | [] => simp at hhead
  | b :: mid =>
    have hb : b = '{' := by simpa using hhead
    subst hb
    simp only [extractActionInput, h1, h2]
    have hb := braceScanAux_balanced mid tail 1 1 (by omega)
      (fun k hk1 hk2 => by
        have := hall (k + 1) (by simp; omega)
        rcases this with h0 | hpos
        · omega
        · rw [List.take_succ_cons, braceDepth_cons_open] at hpos
          omega)
      (by rw [braceDepth_cons_open] at hdep; omega)
    have hscan : braceScanAux ('{' :: (mid ++ tail)) 0 0 = some (mid.length + 1) := by
      rw [braceScanAux_open]
      rw [show ((0 : Int) + 1) = 1 from by omega, show ((0 : Nat) + 1) = 1 from rfl, hb]
      simp only [Option.some.injEq]
      omega
    rw [List.cons_append, hscan]
    change some (('{' :: (mid ++ tail)).take (mid.length + 1)) = some ('{' :: mid)
    have htake : ('{' :: (mid ++ tail)).take (mid.length + 1) = '{' :: mid := by
      have h := List.take_left ('{' :: mid) tail
      simp only [List.cons_append, List.length_cons] at h
      exact h
    rw [htake]

/-- C4 witness: a nested object with braces inside string content,
followed by trailing text, is recovered exactly. -/
theorem action_input_brace_extraction_witness :
    extractActionInput
        ("Action Input: \x7b\"a\": \x7b\"b\": \"\x7d\x7b\", \"c\": \x7b\x7d\x7d\x7d 后续".toList) =
      some ("\x7b\"a\": \x7b\"b\": \"\x7d\x7b\", \"c\": \x7b\x7d\x7d\x7d".toList) :=
  action_input_brace_extraction
    "Action Input: \x7b\"a\": \x7b\"b\": \"\x7d\x7b\", \"c\": \x7b\x7d\x7d\x7d 后续"
    [] (" \x7b\"a\": \x7b\"b\": \"\x7d\x7b\", \"c\": \x7b\x7d\x7d\x7d 后续".toList)
    ("\x7b\"a\": \x7b\"b\": \"\x7d\x7b\", \"c\": \x7b\x7d\x7d\x7d".toList) (" 后续".toList)
    (by decide) (by decide) (by decide)

/-! C6: merge order of the fallback parameter parsing. -/

theorem pyDictLookup_insert (d : PyDict) (k' : String) (v' : PyVal) (k : String) :
    pyDictLookup (pyDictInsert d k' v') k =
      if k' = k then some v' else pyDictLookup d k := by
  induction d with
  | nil => simp [pyDictInsert, pyDictLookup]
  | cons a rest ih =>
    obtain ⟨ak, av⟩ := a
    by_cases hak : ak = k'
    · subst hak
      simp only [pyDictInsert, if_pos rfl, pyDictLookup]
      by_cases hk : ak = k
      · simp [hk]
      · simp [hk, pyDictLookup]
    · simp only [pyDictInsert, if_neg hak, pyDictLookup]
      by_cases hk : ak = k
      · subst hk
        rw [if_pos rfl, if_neg (fun h => hak h.symm), if_pos rfl]
      · rw [if_neg hk, if_neg hk, ih]

theorem lookup_foldl_insert (ps : List (String × PyVal)) (d0 : PyDict) (k : String) :
    pyDictLookup (ps.foldl (fun d kv => pyDictInsert d kv.1 kv.2) d0) k =
      match lastAssoc ps k with
      | some v => some v
      | none => pyDictLookup d0 k := by
  induction ps generalizing d0 with
  | nil => simp [lastAssoc]
  | cons a rest ih =>
    obtain ⟨k', v'⟩ := a
    simp only [List.foldl_cons, lastAssoc]
    rw [ih]
    match hl : lastAssoc rest k with
    | some v => rfl
    | none =>
      simp only []
      rw [pyDictLookup_insert]
      by_cases hk : k' = k
      · simp [hk]
      · simp [hk]

theorem lookup_foldl_condInsert (ps : List (String × PyVal)) (d0 : PyDict) (k : String) :
    pyDictLookup (ps.foldl
        (fun d kv => if (pyDictLookup d kv.1).isSome then d else pyDictInsert d kv.1 kv.2)
        d0) k =
      match pyDictLookup d0 k with
      | some v => some v
      | none => firstAssoc ps k := by
  induction ps generalizing d0 with
  | nil =>
    simp only [List.foldl_nil, firstAssoc]
    match pyDictLookup d0 k with
    | some v => rfl
    | none => rfl
  | cons a rest ih =>
    obtain ⟨k', v'⟩ := a
    simp only [List.foldl_cons, firstAssoc]
    by_cases hpres : (pyDictLookup d0 k').isSome
    · rw [if_pos hpres, ih]
      match hd : pyDictLookup d0 k with
      | some v => rfl
      | none =>
        simp only []
        by_cases hk : k' = k
        · subst hk
          rw [hd] at hpres
          simp at hpres
        · rw [if_neg hk]
    · rw [if_neg hpres, ih]
      rw [pyDictLookup_insert]
      by_cases hk : k' = k
      · subst hk
        simp only [Option.isSome] at hpres
        match hd : pyDictLookup d0 k' with
        | some v => rw [hd] at hpres; simp at hpres
        | none => simp [hd]
      · simp only [if_neg hk]

/-- C6: the fallback merge order as the code implements it.  Part one
ties the fallback into _parse_action: when the Final-Answer search fails,
an action name parses, Action-Input text is extracted and the strict JSON
parse fails, the parameters are the fallback merge.  Part two gives every
key's value in the merged map: the LAST quoted-string match for the key
(dict(pairs) lets later duplicates overwrite), else the first numeric
match, else the first boolean match.  (The claim as frozen says the first
match always wins; the counterexample shows the string scan keeps the
last.) -/
theorem fallback_merge_amended :
    (∀ (jl : String → Option PyDict) (s : String) (w js : List Char),
        searchMarkerTail ("Final Answer:".toList) s.toList = none →
        searchActionName s.toList = some w →
        extractActionInput s.toList = some js →
        jl ⟨js⟩ = none →
        parseAction jl s = .action ⟨w⟩ (fallbackParseInput js)) ∧
    (∀ (text : List Char) (k : String),
        pyDictLookup (fallbackParseInput text) k =
          match lastAssoc (strPairsOf text) k with
          | some v => some v
          | none =>
            match firstAssoc (numPairsOf text) k with
            | some v => some v
            | none => firstAssoc (boolPairsOf text) k) := by
  constructor
  · intro jl s w js hfin hact hext hjl
    simp only [parseAction, hfin, hact, hext, hjl]
  · intro text k
    simp only [fallbackParseInput]
    rw [lookup_foldl_condInsert, lookup_foldl_condInsert, lookup_foldl_insert]
    match lastAssoc (strPairsOf text) k with
    | some v => rfl
    | none => simp only [pyDictLookup]

/-- C6 witness: a concrete fallback input exercising both parts: the key
n appears only as a numeric pair, so its first numeric match is kept. -/
theorem fallback_merge_amended_witness :
    parseAction jsonLoadsDict "Action: t\nAction Input: \x7b\"n\": 3 oops\x7d" =
        .action "t" (fallbackParseInput ("\x7b\"n\": 3 oops\x7d".toList)) ∧
      pyDictLookup (fallbackParseInput ("\x7b\"n\": 3 oops\x7d".toList)) "n" =
        match lastAssoc (strPairsOf ("\x7b\"n\": 3 oops\x7d".toList)) "n" with
        | some v => some v
        | none =>
          match firstAssoc (numPairsOf ("\x7b\"n\": 3 oops\x7d".toList)) "n" with
          | some v => some v
          | none => firstAssoc (boolPairsOf ("\x7b\"n\": 3 oops\x7d".toList)) "n" :=
  ⟨fallback_merge_amended.1 jsonLoadsDict "Action: t\nAction Input: \x7b\"n\": 3 oops\x7d"
      ("t".toList) ("\x7b\"n\": 3 oops\x7d".toList) rfl rfl rfl rfl,
    fallback_merge_amended.2 ("\x7b\"n\": 3 oops\x7d".toList) "n"⟩

/-- C6 counterexample: with Action Input text containing the quoted pair
a:1 before a:2 (invalid JSON, so the fallback runs), the scan's first
match for a is 1 but the merged map holds 2 — a later match overwrote an
earlier one. -/
theorem fallback_first_wins_claim_false :
    jsonLoadsDict "\x7b\"a\": \"1\" \"a\": \"2\"\x7d" = none ∧
      scanStringPairs ("\x7b\"a\": \"1\" \"a\": \"2\"\x7d".toList) =
        [("a".toList, "1".toList), ("a".toList, "2".toList)] ∧
      parseActionC "Action: t\nAction Input: \x7b\"a\": \"1\" \"a\": \"2\"\x7d" =
        .action "t" [("a", .vStr "2")] :=
  ⟨rfl, rfl, rfl⟩

/-! C7: the exception boundary of _execute_action. -/

/-- C7: the orchestrator's tool boundary.  Part one: whenever the looked-up
tool's execute(**params) call raises — whatever the exception, including
one provoked by a missing required argument — _execute_action catches it
and returns the failing observation pair, so nothing escapes.  Part two:
the validating BaseTool.__call__, which the orchestrator does NOT use,
would instead intercept a missing required schema parameter and return a
failing ToolResult without reaching execute. -/
theorem execute_action_exception_boundary :
    (∀ (tools : List (String × PyTool)) (name : String) (input : PyDict)
        (t : PyTool) (e : String),
        pyAssocLookup tools name = some t →
        t.execute input = .error e →
        executeAction tools name input =
          ("工具执行异常: " ++ e,
           [("error", .vStr ("工具执行异常: " ++ e)), ("success", .vBool false)])) ∧
    (∀ (t : PyTool) (kwargs : PyDict) (p : ToolParamSpec),
        p ∈ t.parameters → p.required.getD true = true →
        pyDictLookup kwargs p.name = none →
        ∃ err, toolDunderCall t kwargs =
          .ok { success := false, output := "", error := some err }) := by
  constructor
  · intro tools name input t e hlook hexec
    simp only [executeAction, hlook, hexec]
  · intro t kwargs p hp hreq hmiss
    have hfind : (t.parameters.find? (fun p =>
        p.required.getD true && (pyDictLookup kwargs p.name).isNone)).isSome := by
      rw [List.find?_isSome]
      exact ⟨p, hp, by rw [hreq, hmiss]; rfl⟩
    match hf : t.parameters.find? (fun p =>
        p.required.getD true && (pyDictLookup kwargs p.name).isNone) with
    | none => rw [hf] at hfind; simp at hfind
    | some q =>
      refine ⟨"缺少必需参数: " ++ q.name, ?_⟩
      simp only [toolDunderCall, validateParams, hf]

/-- C7 witness: the crashing tool's exception is converted at the
boundary, and __call__ would have intercepted the missing parameter. -/
theorem execute_action_exception_boundary_witness :
    executeAction [("rag_search", crashingTool)] "rag_search" [] =
        ("工具执行异常: " ++ "KeyError: 'query'",
         [("error", .vStr ("工具执行异常: " ++ "KeyError: 'query'")),
          ("success", .vBool false)]) ∧
      ∃ err, toolDunderCall crashingTool [] =
        .ok { success := false, output := "", error := some err } :=
  ⟨execute_action_exception_boundary.1 [("rag_search", crashingTool)] "rag_search" []
      crashingTool "KeyError: 'query'" rfl rfl,
    execute_action_exception_boundary.2 crashingTool []
      { name := "query", type := "string", description := "查询内容" }
      (by simp [crashingTool]) rfl rfl⟩

/-! C9: registry registration. -/

theorem pyAssocLookup_append_single (l : List (String × PyTool)) (k : String)
    (t : PyTool) (n : String) :
    pyAssocLookup (l ++ [(k, t)]) n =
      match pyAssocLookup l n with
      | some u => some u
      | none => if k = n then some t else none := by
  induction l with
  | nil => simp [pyAssocLookup]
  | cons a rest ih =>
    obtain ⟨ak, at'⟩ := a
    by_cases hak : ak = n
    · simp [pyAssocLookup, hak]
    · simp only [List.cons_append, pyAssocLookup, if_neg hak]
      exact ih

theorem pyAssocLookup_eq_none_iff (l : List (String × PyTool)) (n : String) :
    pyAssocLookup l n = none ↔ n ∉ l.map Prod.fst := by
  induction l with
  | nil => simp [pyAssocLookup]
  | cons a rest ih =>
    obtain ⟨ak, at'⟩ := a
    by_cases hak : ak = n
    · simp [pyAssocLookup, hak]
    · simp only [pyAssocLookup, if_neg hak, List.map_cons, List.mem_cons]
      rw [ih]
      constructor
      · intro h hcon
        rcases hcon with h1 | h2
        · exact hak h1.symm
        · exact h h2
      · intro h
        exact fun hmem => h (Or.inr hmem)

theorem registerStep_tools (reg : ToolRegistry) (t : PyTool) :
    (registerStep reg t).tools =
      if (pyAssocLookup reg.tools t.name).isSome then reg.tools
      else reg.tools ++ [(t.name, t)] := by
  by_cases h : (pyAssocLookup reg.tools t.name).isSome
  · simp [registerStep, ToolRegistry.register, h]
  · simp [registerStep, ToolRegistry.register, h]

theorem lookup_foldl_registerStep (ts : List PyTool) :
    ∀ (reg : ToolRegistry) (n : String),
      pyAssocLookup (ts.foldl registerStep reg).tools n =
        match pyAssocLookup reg.tools n with
        | some u => some u
        | none => ts.find? (fun t => t.name == n) := by
  induction ts with
  | nil =>
    intro reg n
    simp only [List.foldl_nil, List.find?]
    match pyAssocLookup reg.tools n with
    | some u => rfl
    | none => rfl
  | cons t rest ih =>
    intro reg n
    simp only [List.foldl_cons, List.find?]
    rw [ih]
    rw [registerStep_tools]
    by_cases hpres : (pyAssocLookup reg.tools t.name).isSome
    · rw [if_pos hpres]
      match hn : pyAssocLookup reg.tools n with
      | some u => rfl
      | none =>
        simp only []
        by_cases hname : t.name = n
        · subst hname
          rw [hn] at hpres
          simp at hpres
        · rw [show (t.name == n) = false from beq_eq_false_iff_ne.mpr hname]
    · rw [if_neg hpres]
      rw [pyAssocLookup_append_single]
      match hn : pyAssocLookup reg.tools n with
      | some u => rfl
      | none =>
        simp only []
        by_cases hname : t.name = n
        · rw [if_pos hname, show (t.name == n) = true from beq_iff_eq.mpr hname]
        · rw [if_neg hname, show (t.name == n) = false from beq_eq_false_iff_ne.mpr hname]

theorem nodup_foldl_registerStep (ts : List PyTool) :
    ∀ reg : ToolRegistry, ((reg.tools.map Prod.fst).Nodup) →
      (((ts.foldl registerStep reg).tools.map Prod.fst).Nodup) := by
  induction ts with
  | nil => intro reg h; simpa using h
  | cons t rest ih =>
    intro reg h
    simp only [List.foldl_cons]
    apply ih
    rw [registerStep_tools]
    by_cases hpres : (pyAssocLookup reg.tools t.name).isSome
    · rw [if_pos hpres]; exact h
    · rw [if_neg hpres]
      have hnot : t.name ∉ reg.tools.map Prod.fst := by
        rw [← pyAssocLookup_eq_none_iff]
        match hx : pyAssocLookup reg.tools t.name with
        | none => rfl
        | some u => rw [hx] at hpres; simp at hpres
      simp [List.nodup_append, h, hnot]

/-- C9 (amended): the two registration paths of the repository.
ToolRegistry.register (tools/base.py) rejects a duplicate name with
ValueError before mutating, so after any sequence of such registrations
the names are unique and each name maps to the first tool registered
under it.  BaseAgent.register_tool (base.py), the agent's own path, is a
plain dict assignment: it never fails, and the name maps to the most
recently registered tool.  (The claim as frozen asserts the fail-and-keep-
first behaviour for every registration; the counterexample shows the
agent path overwrites.) -/
theorem registry_unique_first_amended :
    (∀ (reg : ToolRegistry) (t u : PyTool),
        pyAssocLookup reg.tools t.name = some u →
        reg.register t = .error ("工具 '" ++ t.name ++ "' 已存在")) ∧
    (∀ ts : List PyTool, (((registerAll ts).tools.map Prod.fst).Nodup)) ∧
    (∀ (ts : List PyTool) (n : String),
        pyAssocLookup (registerAll ts).tools n = ts.find? (fun t => t.name == n)) ∧
    (∀ (tools : List (String × PyTool)) (t : PyTool),
        pyAssocLookup (registerTool tools t) t.name = some t) := by
  refine ⟨?_, ?_, ?_, ?_⟩
  · intro reg t u hdup
    simp [ToolRegistry.register, hdup]
  · intro ts
    rw [show registerAll ts = ts.foldl registerStep emptyRegistry from rfl]
    exact nodup_foldl_registerStep ts emptyRegistry (by simp [emptyRegistry])
  · intro ts n
    rw [show registerAll ts = ts.foldl registerStep emptyRegistry from rfl,
      lookup_foldl_registerStep]
    simp [emptyRegistry, pyAssocLookup]
  · intro tools t
    induction tools with
    | nil => simp [registerTool, pyAssocLookup]
    | cons a rest ih =>
      obtain ⟨ak, at'⟩ := a
      by_cases hak : ak = t.name
      · simp [registerTool, hak, pyAssocLookup]
      · simp only [registerTool, if_neg hak, pyAssocLookup, if_neg hak]
        exact ih

/-- C9 counterexample: registering through BaseAgent.register_tool (one
of the claim's cited registration paths) with a duplicate name does not
fail — the second registration silently replaces the first, so the name
maps to the last tool registered, not the first. -/
theorem register_tool_overwrite_claim_false :
    (pyAssocLookup (registerTool (registerTool [] dupToolFirst) dupToolSecond)
        "dup").map (fun t => t.description) = some "second" := rfl

/-- C9 witness: the amended claim at a concrete registration sequence. -/
theorem registry_unique_first_amended_witness :
    ToolRegistry.register
        { tools := [("dup", dupToolFirst)],
          categories := emptyRegistry.categories } dupToolSecond =
        .error ("工具 '" ++ "dup" ++ "' 已存在") ∧
      pyAssocLookup (registerAll [dupToolFirst, dupToolSecond]).tools "dup" =
        some dupToolFirst ∧
      pyAssocLookup (registerTool (registerTool [] dupToolFirst) dupToolSecond)
        "dup" = some dupToolSecond :=
  ⟨by
      have h := registry_unique_first_amended.1
        { tools := [("dup", dupToolFirst)], categories := emptyRegistry.categories }
        dupToolSecond dupToolFirst rfl
      exact h,
    by
      have h := registry_unique_first_amended.2.2.1 [dupToolFirst, dupToolSecond] "dup"
      rw [h]
      rfl,
    registry_unique_first_amended.2.2.2 (registerTool [] dupToolFirst) dupToolSecond⟩

/-! C10: a nonpositive iteration budget. -/

/-- C10: with max_iterations ≤ 0 the while condition is false at once:
the run makes no model call and no tool invocation and returns
immediately with success false, the fixed exhaustion answer, an empty
transcript and iteration count zero. -/
theorem run_nonpositive_budget (jl : String → Option PyDict) (llm : LlmOracle)
    (tools : List (String × PyTool)) (cfg : AgentConfig)
    (question chat_history current_datetime : String)
    (hmax : cfg.max_iterations ≤ 0) :
    run jl llm tools cfg question chat_history current_datetime =
      { resp :=
          { success := false, answer := exhaustedAnswer, thought_process := [],
            tools_used := [], iterations := 0, final_reflection := none },
        finalState := .completed, llmCalls := 0, toolInvocations := [] } := by
  unfold run
  rw [Int.toNat_of_nonpos hmax]
  simp only [runLoop]
  rfl

/-- C10 witness: a concrete run with budget zero. -/
theorem run_nonpositive_budget_witness :
    run jsonLoadsDict (fun _ _ => .error "网络中断") [] { max_iterations := 0 }
        "你好" "" "2026年10月12日 00:00:00" =
      { resp :=
          { success := false, answer := exhaustedAnswer, thought_process := [],
            tools_used := [], iterations := 0, final_reflection := none },
        finalState := .completed, llmCalls := 0, toolInvocations := [] } :=
  run_nonpositive_budget jsonLoadsDict (fun _ _ => .error "网络中断") []
    { max_iterations := 0 } "你好" "" "2026年10月12日 00:00:00" (by decide)

/-! C1: iterations versus recorded steps. -/

theorem loopIter_failed_state (jl : String → Option PyDict) (llm : LlmOracle)
    (tools : List (String × PyTool)) (st st' : LoopState) (e : String)
    (h : loopIter jl llm tools st = .exitFailed e st') :
    st'.iterations = st.iterations + 1 ∧ st'.thoughtHistory = st.thoughtHistory ∧
      st'.toolsUsed = st.toolsUsed := by
  unfold loopIter at h
  split at h
  · cases h
    exact ⟨rfl, rfl, rfl⟩
  · split at h <;> cases h

theorem loopIter_final_state (jl : String → Option PyDict) (llm : LlmOracle)
    (tools : List (String × PyTool)) (st st' : LoopState) (a : String)
    (h : loopIter jl llm tools st = .exitFinal a st') :
    st'.iterations = st.iterations + 1 ∧
      st'.thoughtHistory.length = st.thoughtHistory.length + 1 ∧
      st'.toolsUsed = st.toolsUsed := by
  unfold loopIter at h
  split at h
  · cases h
  · split at h
    · cases h
      refine ⟨rfl, by simp, rfl⟩
    · cases h
    · cases h

theorem loopIter_next_state (jl : String → Option PyDict) (llm : LlmOracle)
    (tools : List (String × PyTool)) (st st' : LoopState)
    (h : loopIter jl llm tools st = .next st') :
    st'.iterations = st.iterations + 1 ∧
      st'.thoughtHistory.length = st.thoughtHistory.length + 1 ∧
      (st'.toolsUsed = st.toolsUsed ∨
        ∃ name, st'.toolsUsed = st.toolsUsed ++ [name]) := by
  unfold loopIter at h
  split at h
  · cases h
  · split at h
    · cases h
    · cases h
      refine ⟨rfl, by simp, Or.inr ⟨_, rfl⟩⟩
    · cases h
      refine ⟨rfl, by simp, Or.inl rfl⟩

theorem runLoop_steps_invariant (jl : String → Option PyDict) (llm : LlmOracle)
    (tools : List (String × PyTool)) (maxIter : Int) :
    ∀ (fuel : Nat) (st : LoopState),
      st.iterations = st.thoughtHistory.length →
      (match runLoop jl llm tools maxIter fuel st with
       | .finished _ st' => st'.iterations = st'.thoughtHistory.length
       | .llmFailed _ st' => st'.iterations = st'.thoughtHistory.length + 1) := by
  intro fuel
  induction fuel with
  | zero => intro st h; simpa [runLoop] using h
  | succ fuel ih =>
    intro st h
    rw [runLoop]
    by_cases hcond : (st.iterations : Int) < maxIter
    · rw [if_pos hcond]
      match hstep : loopIter jl llm tools st with
      | .exitFailed e st' =>
        obtain ⟨h1, h2, -⟩ := loopIter_failed_state _ _ _ _ _ _ hstep
        simp only []
        rw [h1, h2, h]
      | .exitFinal a st' =>
        obtain ⟨h1, h2, -⟩ := loopIter_final_state _ _ _ _ _ _ hstep
        simp only []
        omega
      | .next st' =>
        obtain ⟨h1, h2, -⟩ := loopIter_next_state _ _ _ _ _ hstep
        exact ih st' (by omega)
    · rw [if_neg hcond]
      simpa using h

theorem runLoop_bound_invariant (jl : String → Option PyDict) (llm : LlmOracle)
    (tools : List (String × PyTool)) (maxIter : Int) :
    ∀ (fuel : Nat) (st : LoopState),
      (st.iterations : Int) ≤ maxIter →
      (match runLoop jl llm tools maxIter fuel st with
       | .finished _ st' => (st'.iterations : Int) ≤ maxIter
       | .llmFailed _ st' => (st'.iterations : Int) ≤ maxIter) := by
  intro fuel
  induction fuel with
  | zero => intro st h; simpa [runLoop] using h
  | succ fuel ih =>
    intro st h
    rw [runLoop]
    by_cases hcond : (st.iterations : Int) < maxIter
    · rw [if_pos hcond]
      match hstep : loopIter jl llm tools st with
      | .exitFailed e st' =>
        obtain ⟨h1, -, -⟩ := loopIter_failed_state _ _ _ _ _ _ hstep
        simp only []
        rw [h1]
        push_cast
        omega
      | .exitFinal a st' =>
        obtain ⟨h1, -, -⟩ := loopIter_final_state _ _ _ _ _ _ hstep
        simp only []
        rw [h1]
        push_cast
        omega
      | .next st' =>
        obtain ⟨h1, -, -⟩ := loopIter_next_state _ _ _ _ _ hstep
        refine ih st' ?_
        rw [h1]
        push_cast
        omega
    · rw [if_neg hcond]
      simpa using h

/-- C1 (amended): on every exit of run except the model-failure early
return, AgentResponse.iterations equals the number of recorded
ThoughtSteps; on the model-failure return it exceeds it by exactly one
(the aborted iteration was counted but records no step); and iterations
never exceeds max_iterations whenever the budget is nonnegative (with a
negative budget the loop never runs and iterations = 0 already exceeds
it, as the counterexample shows). -/
theorem run_iterations_vs_steps (jl : String → Option PyDict) (llm : LlmOracle)
    (tools : List (String × PyTool)) (cfg : AgentConfig)
    (question chat_history current_datetime : String) :
    ((run jl llm tools cfg question chat_history current_datetime).finalState =
        .completed →
      (run jl llm tools cfg question chat_history current_datetime).resp.iterations =
        (run jl llm tools cfg question chat_history
          current_datetime).resp.thought_process.length) ∧
    ((run jl llm tools cfg question chat_history current_datetime).finalState =
        .error →
      (run jl llm tools cfg question chat_history current_datetime).resp.iterations =
        (run jl llm tools cfg question chat_history
          current_datetime).resp.thought_process.length + 1) ∧
    (0 ≤ cfg.max_iterations →
      ((run jl llm tools cfg question chat_history
          current_datetime).resp.iterations : Int) ≤ cfg.max_iterations) := by
  have hrun : run jl llm tools cfg question chat_history current_datetime =
      assembleRun llm cfg question
        (runLoop jl llm tools cfg.max_iterations cfg.max_iterations.toNat
          ⟨reactPrompt current_datetime
            (if chat_history = "" then "无" else chat_history)
            (toolsDescription tools) question, 0, [], [], 0, []⟩) := rfl
  have hsteps := runLoop_steps_invariant jl llm tools cfg.max_iterations
    cfg.max_iterations.toNat ⟨reactPrompt current_datetime
      (if chat_history = "" then "无" else chat_history)
      (toolsDescription tools) question, 0, [], [], 0, []⟩ rfl
  have hb := fun (hnn : 0 ≤ cfg.max_iterations) =>
    runLoop_bound_invariant jl llm tools cfg.max_iterations
      cfg.max_iterations.toNat ⟨reactPrompt current_datetime
        (if chat_history = "" then "无" else chat_history)
        (toolsDescription tools) question, 0, [], [], 0, []⟩ (by simpa using hnn)
  rw [hrun]
  match hloop : runLoop jl llm tools cfg.max_iterations cfg.max_iterations.toNat
      ⟨reactPrompt current_datetime
        (if chat_history = "" then "无" else chat_history)
        (toolsDescription tools) question, 0, [], [], 0, []⟩ with
  | .llmFailed e st =>
    rw [hloop] at hsteps
    refine ⟨fun hco => ?_, fun _ => by simpa [assembleRun] using hsteps, fun hnn => ?_⟩
    · simp [assembleRun] at hco
    · have hbb := hb hnn
      rw [hloop] at hbb
      simpa [assembleRun] using hbb
  | .finished fa st =>
    rw [hloop] at hsteps
    refine ⟨fun _ => by simpa [assembleRun] using hsteps, fun herr => ?_, fun hnn => ?_⟩
    · simp [assembleRun] at herr
    · have hbb := hb hnn
      rw [hloop] at hbb
      simpa [assembleRun] using hbb

/-- C1 counterexample: with a model that raises on the first call,
iterations is 1 but the transcript is empty (the equality of the claim
fails on the exception path); and with max_iterations = -1 the returned
iterations 0 exceeds the configured maximum (the bound of the claim
fails for a negative budget). -/
theorem run_iterations_claim_false :
    ((run jsonLoadsDict llmBoom [] { max_iterations := 1 } "q" "" "d").resp.iterations
        = 1 ∧
      (run jsonLoadsDict llmBoom [] { max_iterations := 1 }
        "q" "" "d").resp.thought_process.length = 0) ∧
    ((run jsonLoadsDict llmBoom [] { max_iterations := -1 } "q" "" "d").resp.iterations
        = 0 ∧
      ¬(((run jsonLoadsDict llmBoom [] { max_iterations := -1 }
          "q" "" "d").resp.iterations : Int) ≤ -1)) :=
  ⟨⟨rfl, rfl⟩, ⟨rfl, by decide⟩⟩

/-- C1 witness: the amended claim at the counterexample's failing run and
at a successful run. -/
theorem run_iterations_vs_steps_witness :
    ((run jsonLoadsDict llmBoom [] { max_iterations := 1 } "q" "" "d").finalState =
        .error →
      (run jsonLoadsDict llmBoom [] { max_iterations := 1 } "q" "" "d").resp.iterations =
        (run jsonLoadsDict llmBoom [] { max_iterations := 1 }
          "q" "" "d").resp.thought_process.length + 1) ∧
    (0 ≤ (1 : Int) →
      ((run jsonLoadsDict llmBoom [] { max_iterations := 1 }
          "q" "" "d").resp.iterations : Int) ≤ 1) :=
  ⟨(run_iterations_vs_steps jsonLoadsDict llmBoom [] { max_iterations := 1 }
      "q" "" "d").2.1,
    (run_iterations_vs_steps jsonLoadsDict llmBoom [] { max_iterations := 1 }
      "q" "" "d").2.2⟩

/-! C3: the unknown-capability iteration. -/

theorem runLoop_toolsUsed_mono (jl : String → Option PyDict) (llm : LlmOracle)
    (tools : List (String × PyTool)) (maxIter : Int) :
    ∀ (fuel : Nat) (st : LoopState) (x : String), x ∈ st.toolsUsed →
      (match runLoop jl llm tools maxIter fuel st with
       | .finished _ st' => x ∈ st'.toolsUsed
       | .llmFailed _ st' => x ∈ st'.toolsUsed) := by
  intro fuel
  induction fuel with
  | zero => intro st x h; simpa [runLoop] using h
  | succ fuel ih =>
    intro st x h
    rw [runLoop]
    by_cases hcond : (st.iterations : Int) < maxIter
    · rw [if_pos hcond]
      match hstep : loopIter jl llm tools st with
      | .exitFailed e st' =>
        obtain ⟨-, -, h3⟩ := loopIter_failed_state _ _ _ _ _ _ hstep
        simp only []
        rw [h3]
        exact h
      | .exitFinal a st' =>
        obtain ⟨-, -, h3⟩ := loopIter_final_state _ _ _ _ _ _ hstep
        simp only []
        rw [h3]
        exact h
      | .next st' =>
        obtain ⟨-, -, h3⟩ := loopIter_next_state _ _ _ _ _ hstep
        refine ih st' x ?_
        rcases h3 with h3 | ⟨name, h3⟩
        · rw [h3]; exact h
        · rw [h3]; exact List.mem_append_left _ h
    · rw [if_neg hcond]
      simpa using h

/-- C3 (amended): an iteration whose parsed action names a capability
absent from the tool registry records the unknown-capability observation
and continues the loop (part one, the loop body produces a continuation
state with the appended step, and the unknown name — contrary to the
frozen claim — appended to tools_used); membership in tools_used is
preserved to the end of the run (part two); and in the concrete scenario
the run goes on to succeed with the unknown name reported in
tools_used (part three). -/
theorem unknown_tool_recovery_amended :
    (∀ (jl : String → Option PyDict) (llm : LlmOracle)
        (tools : List (String × PyTool)) (st : LoopState)
        (out name : String) (input : PyDict),
        llm st.llmCalls st.currentPrompt = .ok out →
        parseAction jl out = .action name input →
        pyAssocLookup tools name = none →
        loopIter jl llm tools st = .next
          { currentPrompt := st.currentPrompt ++ "\n\n" ++ out ++
              "\n\nObservation: " ++ unknownToolMsg tools name ++ "\n\n请继续推理：",
            iterations := st.iterations + 1,
            thoughtHistory := st.thoughtHistory ++
              [{ step := st.iterations + 1, thought := thoughtOf out,
                 action := some name, action_input := some input,
                 observation := some (unknownToolMsg tools name),
                 observation_data := some [("error", .vStr (unknownToolMsg tools name))] }],
            toolsUsed := st.toolsUsed ++ [name],
            llmCalls := st.llmCalls + 1,
            toolInvocations := st.toolInvocations }) ∧
    (∀ (jl : String → Option PyDict) (llm : LlmOracle)
        (tools : List (String × PyTool)) (maxIter : Int)
        (fuel : Nat) (st : LoopState) (x : String), x ∈ st.toolsUsed →
        (match runLoop jl llm tools maxIter fuel st with
         | .finished _ st' => x ∈ st'.toolsUsed
         | .llmFailed _ st' => x ∈ st'.toolsUsed)) ∧
    ((run jsonLoadsDict llmUnknownTool [] { max_iterations := 2 }
        "q" "" "d").resp.tools_used = ["nonexistent_tool"] ∧
      (run jsonLoadsDict llmUnknownTool [] { max_iterations := 2 }
        "q" "" "d").resp.success = true ∧
      (run jsonLoadsDict llmUnknownTool [] { max_iterations := 2 }
        "q" "" "d").resp.iterations = 2 ∧
      (run jsonLoadsDict llmUnknownTool [] { max_iterations := 2 }
          "q" "" "d").resp.thought_process.map (fun s => s.observation) =
        [some (unknownToolMsg [] "nonexistent_tool"), some "已得出最终答案"]) := by
  refine ⟨?_, runLoop_toolsUsed_mono, ⟨rfl, rfl, rfl, rfl⟩⟩
  intro jl llm tools st out name input hllm hparse hlook
  simp only [loopIter, hllm, hparse, executeAction, hlook]
  simp

/-- C3 counterexample: the frozen claim requires the unknown name to be
excluded from the returned tools_used, but the source appends
action_name to tools_used whether or not the tool exists (base.py line
741), so the unknown name is reported. -/
theorem unknown_tool_excluded_claim_false :
    "nonexistent_tool" ∈ (run jsonLoadsDict llmUnknownTool []
      { max_iterations := 2 } "q" "" "d").resp.tools_used := by
  decide

/-- C3 witness: part one of the amended claim at the concrete scenario
state. -/
theorem unknown_tool_recovery_amended_witness :
    loopIter jsonLoadsDict llmUnknownTool [] ⟨"p", 0, [], [], 0, []⟩ = .next
      { currentPrompt := "p" ++ "\n\n" ++
          "Thought: t\nAction: nonexistent_tool\nAction Input: \x7b\"q\": \"x\"\x7d" ++
          "\n\nObservation: " ++ unknownToolMsg [] "nonexistent_tool" ++
          "\n\n请继续推理：",
        iterations := 0 + 1,
        thoughtHistory := [] ++
          [{ step := 0 + 1,
             thought := thoughtOf
               "Thought: t\nAction: nonexistent_tool\nAction Input: \x7b\"q\": \"x\"\x7d",
             action := some "nonexistent_tool",
             action_input := some [("q", .vStr "x")],
             observation := some (unknownToolMsg [] "nonexistent_tool"),
             observation_data := some
               [("error", .vStr (unknownToolMsg [] "nonexistent_tool"))] }],
        toolsUsed := [] ++ ["nonexistent_tool"],
        llmCalls := 0 + 1,
        toolInvocations := [] } :=
  unknown_tool_recovery_amended.1 jsonLoadsDict llmUnknownTool []
    ⟨"p", 0, [], [], 0, []⟩
    "Thought: t\nAction: nonexistent_tool\nAction Input: \x7b\"q\": \"x\"\x7d"
    "nonexistent_tool" [("q", .vStr "x")] rfl rfl rfl

/-! C8: reflection is fail-open and purely advisory. -/

/-- C8: part one — when the reflection model call raises, _reflect
returns approved with no suggestion (fail-open).  Part two — a run with
reflection enabled returns the same answer, success flag, iteration
count, transcript and tools_used as the same run with reflection
disabled; reflection only ever contributes the final_reflection
annotation, and with reflection disabled that annotation is always
none. -/
theorem reflection_fail_open_and_advisory :
    (∀ (llm : LlmOracle) (idx : Nat) (question answer : String)
        (tools_used : List String) (e : String),
        llm idx (reflectionPrompt question answer
          (if tools_used.isEmpty then "无" else String.intercalate ", " tools_used)) =
          .error e →
        reflect true llm idx question answer tools_used = ((true, none), idx + 1)) ∧
    (∀ (jl : String → Option PyDict) (llm : LlmOracle)
        (tools : List (String × PyTool)) (cfg : AgentConfig)
        (question chat_history current_datetime : String),
        (run jl llm tools { cfg with enable_reflection := true }
            question chat_history current_datetime).resp.answer =
          (run jl llm tools { cfg with enable_reflection := false }
            question chat_history current_datetime).resp.answer ∧
        (run jl llm tools { cfg with enable_reflection := true }
            question chat_history current_datetime).resp.success =
          (run jl llm tools { cfg with enable_reflection := false }
            question chat_history current_datetime).resp.success ∧
        (run jl llm tools { cfg with enable_reflection := true }
            question chat_history current_datetime).resp.iterations =
          (run jl llm tools { cfg with enable_reflection := false }
            question chat_history current_datetime).resp.iterations ∧
        (run jl llm tools { cfg with enable_reflection := true }
            question chat_history current_datetime).resp.thought_process =
          (run jl llm tools { cfg with enable_reflection := false }
            question chat_history current_datetime).resp.thought_process ∧
        (run jl llm tools { cfg with enable_reflection := true }
            question chat_history current_datetime).resp.tools_used =
          (run jl llm tools { cfg with enable_reflection := false }
            question chat_history current_datetime).resp.tools_used ∧
        (run jl llm tools { cfg with enable_reflection := false }
            question chat_history current_datetime).resp.final_reflection = none) := by
  constructor
  · intro llm idx question answer tools_used e herr
    simp only [reflect, Bool.not_true, Bool.false_eq_true, if_false, herr]
  · intro jl llm tools cfg question chat_history current_datetime
    have hrw : ∀ b : Bool,
        run jl llm tools { cfg with enable_reflection := b }
          question chat_history current_datetime =
        assembleRun llm { cfg with enable_reflection := b } question
          (runLoop jl llm tools cfg.max_iterations cfg.max_iterations.toNat
            ⟨reactPrompt current_datetime
              (if chat_history = "" then "无" else chat_history)
              (toolsDescription tools) question, 0, [], [], 0, []⟩) :=
      fun b => rfl
    rw [hrw true, hrw false]
    match runLoop jl llm tools cfg.max_iterations cfg.max_iterations.toNat
        ⟨reactPrompt current_datetime
          (if chat_history = "" then "无" else chat_history)
          (toolsDescription tools) question, 0, [], [], 0, []⟩ with
    | .llmFailed e st => exact ⟨rfl, rfl, rfl, rfl, rfl, rfl⟩
    | .finished fa st =>
      refine ⟨rfl, rfl, rfl, rfl, rfl, ?_⟩
      simp only [assembleRun, reflect]
      by_cases hfa : pyTruthy fa = true
      · simp [hfa]
      · simp [hfa]

/-- C8 witness: the fail-open outcome on a raising critic, and the
advisory property on a concrete run whose model gives a final answer and
whose critic then raises. -/
theorem reflection_fail_open_and_advisory_witness :
    reflect true (fun _ _ => .error "超时") 1 "q" "a" [] = ((true, none), 1 + 1) ∧
      (run jsonLoadsDict (fun i _ => if i = 0 then .ok "Final Answer: hi"
            else .error "超时") []
          { enable_reflection := true } "q" "" "d").resp.answer =
        (run jsonLoadsDict (fun i _ => if i = 0 then .ok "Final Answer: hi"
            else .error "超时") []
          { enable_reflection := false } "q" "" "d").resp.answer :=
  ⟨reflection_fail_open_and_advisory.1 (fun _ _ => .error "超时") 1 "q" "a" [] "超时" rfl,
    (reflection_fail_open_and_advisory.2 jsonLoadsDict
      (fun i _ => if i = 0 then .ok "Final Answer: hi" else .error "超时") []
      {} "q" "" "d").1⟩

/-! C5: marker gating of the streaming token loop. -/

theorem isPrefixOf_append (pat l l' : List Char) (h : pat.isPrefixOf l = true) :
    pat.isPrefixOf (l ++ l') = true := by
  induction pat generalizing l with
  | nil => simp [List.isPrefixOf]
  | cons p ps ih =>
    match l with
    | [] => simp [List.isPrefixOf] at h
    | c :: rest =>
      simp only [List.isPrefixOf, Bool.and_eq_true] at h
      simp only [List.cons_append, List.isPrefixOf, Bool.and_eq_true]
      exact ⟨h.1, ih rest h.2⟩

theorem containsSub_append_left (pat l l' : List Char)
    (h : containsSub pat l = true) : containsSub pat (l ++ l') = true := by
  induction l with
  | nil =>
    simp only [containsSub, splitAtFirst] at h
    split at h
    · rename_i hpre
      match l' with
      | [] => simp [containsSub, splitAtFirst, hpre]
      | c :: rest =>
        have : pat = [] := by
          match pat, hpre with
          | [], _ => rfl
        subst this
        simp [containsSub, splitAtFirst, List.isPrefixOf]
    · simp at h
  | cons c rest ih =>
    rw [List.cons_append]
    by_cases hpre : pat.isPrefixOf (c :: (rest ++ l')) = true
    · simp only [containsSub, splitAtFirst, hpre]
      simp
    · have hpre2 : pat.isPrefixOf (c :: rest) = false := by
        match hx : pat.isPrefixOf (c :: rest) with
        | false => rfl
        | true =>
          have := isPrefixOf_append pat (c :: rest) l' hx
          rw [List.cons_append] at this
          exact absurd this hpre
      simp only [containsSub, splitAtFirst, hpre2, Bool.false_eq_true, if_false] at h
      have hrest : containsSub pat rest = true := by
        simp only [containsSub]
        match hy : splitAtFirst pat rest with
        | some p => rfl
        | none => rw [hy] at h; simp at h
      have hgoal := ih hrest
      simp only [containsSub, splitAtFirst]
      rw [if_neg hpre]
      simp only [containsSub] at hgoal
      match hz : splitAtFirst pat (rest ++ l') with
      | some p => simp
      | none => rw [hz] at hgoal; simp at hgoal

theorem containsSubstr_mono (s t pat : String)
    (h : containsSubstr (s ++ t) pat = false) : containsSubstr s pat = false := by
  match hx : containsSubstr s pat with
  | false => rfl
  | true =>
    have := containsSub_append_left pat.toList s.toList t.toList hx
    rw [show s.toList ++ t.toList = (s ++ t).toList from (String.data_append s t).symm] at this
    rw [show containsSub pat.toList (s ++ t).toList = containsSubstr (s ++ t) pat from rfl] at this
    rw [h] at this
    exact absurd this (by simp)

theorem processChunks_silent (chunks : List String) :
    ∀ (st : TokenState) (i : Nat), st.isFinal = false →
      containsSubstr (st.llmOutput ++ concatStrings chunks) "Final Answer:" = false →
      processChunks st chunks i =
        (⟨st.llmOutput ++ concatStrings chunks, false, st.buffer⟩, []) := by
  induction chunks with
  | nil =>
    intro st i hfin h
    obtain ⟨o, f, b⟩ := st
    simp only [] at hfin
    subst hfin
    simp [processChunks, concatStrings]
  | cons t rest ih =>
    intro st i hfin h
    have hassoc : st.llmOutput ++ concatStrings (t :: rest) =
        (st.llmOutput ++ t) ++ concatStrings rest := by
      simp only [concatStrings]
      rw [String.append_assoc]
    have hnot : containsSubstr (st.llmOutput ++ t) "Final Answer:" = false := by
      apply containsSubstr_mono (st.llmOutput ++ t) (concatStrings rest)
      rw [← hassoc]
      exact h
    have hchunk : processChunk st t i = (⟨st.llmOutput ++ t, false, st.buffer⟩, []) := by
      simp only [processChunk, hfin, hnot]
      simp
    simp only [processChunks, hchunk]
    rw [ih ⟨st.llmOutput ++ t, false, st.buffer⟩ i rfl (by rw [← hassoc]; exact h)]
    simp only []
    rw [hassoc]
    simp

/-- C5: marker gating of run_stream's token loop.  Part one: while the
marker has not yet appeared in the accumulated output, the token loop
emits nothing at all — in particular no answer_token.  Part two: the
fragment whose arrival first completes the marker emits answer_start and,
when the lstripped tail after the marker is nonempty, exactly one
answer_token carrying that already-buffered tail.  Part three: once in
the final-answer phase every subsequent fragment is emitted as its own
answer_token.  Part four: on Scenario E's fragments the full run_stream
event list is exactly start, iteration, thinking_start, answer_start,
answer_token(hi) once, thinking_end, answer, meta, done. -/
theorem stream_marker_gating :
    (∀ (chunks : List String) (st : TokenState) (i : Nat), st.isFinal = false →
        containsSubstr (st.llmOutput ++ concatStrings chunks) "Final Answer:" = false →
        processChunks st chunks i =
          (⟨st.llmOutput ++ concatStrings chunks, false, st.buffer⟩, [])) ∧
    (∀ (st : TokenState) (tok : String) (i : Nat), st.isFinal = false →
        containsSubstr (st.llmOutput ++ tok) "Final Answer:" = true →
        processChunk st tok i =
          (⟨st.llmOutput ++ tok, true,
              pyLStrip (afterFirstMarker (st.llmOutput ++ tok))⟩,
            ⟨"answer_start", .nothing, i⟩ ::
              (if pyLStrip (afterFirstMarker (st.llmOutput ++ tok)) ≠ "" then
                [⟨"answer_token",
                  .text (pyLStrip (afterFirstMarker (st.llmOutput ++ tok))), i⟩]
              else []))) ∧
    (∀ (st : TokenState) (tok : String) (i : Nat), st.isFinal = true →
        processChunk st tok i =
          (⟨st.llmOutput ++ tok, true, st.buffer ++ tok⟩,
            [⟨"answer_token", .text tok, i⟩])) ∧
    ((runStream jsonLoadsDict scenarioEOracle (fun _ _ => .error "unused") []
        {} "q" "" "2026年10月12日 00:00:00").1 =
      [⟨"start", .text "开始推理...", 0⟩,
       ⟨"iteration", .iterInfo 1 5, 1⟩,
       ⟨"thinking_start", .nothing, 1⟩,
       ⟨"answer_start", .nothing, 1⟩,
       ⟨"answer_token", .text "hi", 1⟩,
       ⟨"thinking_end", .text "Thought: a\nFinal Answer: hi", 1⟩,
       ⟨"answer", .text "hi", 1⟩,
       ⟨"meta", .metaInfo [] 1, 0⟩,
       ⟨"done", .nothing, 0⟩]) := by
  refine ⟨processChunks_silent, ?_, ?_, rfl⟩
  · intro st tok i hfin hmark
    simp only [processChunk, hfin, hmark]
    simp
  · intro st tok i hfin
    simp only [processChunk, hfin]
    simp

/-- C5 witness: the gating parts at concrete states: the first two
fragments of Scenario E emit nothing, the third completes the marker and
emits answer_start then answer_token(hi), and a later fragment streams as
its own token. -/
theorem stream_marker_gating_witness :
    processChunks ⟨"", false, ""⟩ ["Tho", "ught: a\nFinal "] 1 =
        (⟨"" ++ concatStrings ["Tho", "ught: a\nFinal "], false, ""⟩, []) ∧
      processChunk ⟨"Thought: a\nFinal ", false, ""⟩ "Answer: hi" 1 =
        (⟨"Thought: a\nFinal " ++ "Answer: hi", true,
            pyLStrip (afterFirstMarker ("Thought: a\nFinal " ++ "Answer: hi"))⟩,
          ⟨"answer_start", .nothing, 1⟩ ::
            (if pyLStrip (afterFirstMarker ("Thought: a\nFinal " ++ "Answer: hi")) ≠ ""
              then [⟨"answer_token",
                .text (pyLStrip (afterFirstMarker ("Thought: a\nFinal " ++ "Answer: hi"))),
                1⟩]
              else [])) ∧
      processChunk ⟨"Thought: a\nFinal Answer: hi", true, "hi"⟩ " 你好" 1 =
        (⟨"Thought: a\nFinal Answer: hi" ++ " 你好", true, "hi" ++ " 你好"⟩,
          [⟨"answer_token", .text " 你好", 1⟩]) :=
  ⟨stream_marker_gating.1 ["Tho", "ught: a\nFinal "] ⟨"", false, ""⟩ 1 rfl (by decide),
    stream_marker_gating.2.1 ⟨"Thought: a\nFinal ", false, ""⟩ "Answer: hi" 1 rfl
      (by decide),
    stream_marker_gating.2.2.1 ⟨"Thought: a\nFinal Answer: hi", true, "hi"⟩ " 你好" 1 rfl⟩

end Agent
